import Mathlib

/-!
Verification of the NEMweb market-price ingestion and reconciliation pipeline
(`power_price/mongodb_sync.py`, `power_price/fetch_prices.py`,
`power_price/fetch_dispatch_historical.py`).

The Python code is shallowly embedded: dictionaries become structures with
optional fields (a field value of `none` models a MongoDB document that lacks
the key, `some none` models a key whose stored value is `null`), timestamps
that only ever enter fixed-offset arithmetic become `Int` seconds, the
minute-resolution file identifiers (`YYYYMMDDHHMM`) stay `String`s compared
lexicographically exactly as the Python code compares them, and every
side-effecting call (network fetch, `datetime.strptime`, `float`) becomes an
explicit input or function parameter.
-/

namespace PowerPrice

/-! ## String helpers

Substring containment mirrors Python's `needle in haystack`, split/trim/upper
mirror `str.split`, `str.strip`, `str.upper` on the ASCII data these files
contain. -/

/-- Lexicographic comparison on code points, Python's `<` on strings. -/
def lexLt : List Char → List Char → Bool
  | [], [] => false
  | [], _ :: _ => true
  | _ :: _, [] => false
  | a :: as, b :: bs => if a < b then true else if b < a then false else lexLt as bs

def strLtB (a b : String) : Bool := lexLt a.toList b.toList

def strLeB (a b : String) : Bool := !(strLtB b a)

/-- Python `str.upper()` (ASCII data). -/
def toUpperStr (s : String) : String := String.mk (s.toList.map Char.toUpper)

/-- Python `str.strip()`. -/
def trimStr (s : String) : String :=
  String.mk (((s.toList.dropWhile Char.isWhitespace).reverse.dropWhile
    Char.isWhitespace).reverse)

/-- Python `str.split(',')` on the underlying character list. -/
def splitComma : List Char → List (List Char)
  | [] => [[]]
  | c :: rest =>
    match splitComma rest with
    | [] => [[]]
    | cur :: parts => if c = ',' then [] :: cur :: parts else (c :: cur) :: parts

def splitCommaStr (s : String) : List String := (splitComma s.toList).map String.mk

/-- Python `', '.join(files)`. -/
def joinComma : List String → String
  | [] => ""
  | [x] => x
  | x :: y :: rest => x ++ ", " ++ joinComma (y :: rest)

/-- Here `leadsWith n h` is true when the list `n` is an initial segment of `h`. -/
def leadsWith : List Char → List Char → Bool
  | [], _ => true
  | _ :: _, [] => false
  | a :: as, b :: bs => a == b && leadsWith as bs

/-- Here `hasSegment n h` is true when `n` occurs contiguously inside `h`
(Python's `n in h` for strings). -/
def hasSegment (n : List Char) : List Char → Bool
  | [] => n.isEmpty
  | c :: rest => leadsWith n (c :: rest) || hasSegment n (rest)

/-- Python's `needle in hay` on strings. -/
def containsStr (hay needle : String) : Bool :=
  hasSegment needle.toList hay.toList

/-- The class test used by the provenance gate in `mongodb_sync.py` (lines
374-386 and 562-583) and `fetch_dispatch_historical.store_to_mongodb`:
`'PUBLIC_PREDISPATCH' in u or 'PUBLIC_P5MIN' in u or 'P5MIN' in u or
'PREDISPATCH' in u` on the upper-cased source filename. -/
def isForecastFile (source_upper : String) : Bool :=
  containsStr source_upper "PUBLIC_PREDISPATCH" || containsStr source_upper "PUBLIC_P5MIN" ||
  containsStr source_upper "P5MIN" || containsStr source_upper "PREDISPATCH"

/-- Python `re.search` for 12 consecutive digits: the first such window. -/
def find12digits : List Char → Option String
  | [] => none
  | c :: rest =>
    let w := (c :: rest).take 12
    if w.length = 12 && w.all Char.isDigit then some (String.mk w)
    else find12digits rest

/-- From `mongodb_sync.parse_timestamp_from_filename`: extract the 12-digit
`YYYYMMDDHHMM` file identifier from a NEMweb filename, if present. -/
def parse_timestamp_from_filename (s : String) : Option String :=
  find12digits s.toList

/-- The cleanup list `files = [f.strip() for f in source.split(',')]` followed by
`[f for f in files if 'PUBLIC_DISPATCH' in f.upper()]`. -/
def cleanDispatchList (source : String) : List String :=
  ((splitCommaStr source).map trimStr).filter
    (fun f => containsStr (toUpperStr f) "PUBLIC_DISPATCH")

/-! ## Data model

`SourceEntry` is the nested per-source provenance block stored in a document
(`{'price': .., 'source_file': .., 'file_timestamp': .., 'fetched_at': ..}`);
`SourceInfo` is the per-source metadata carried in the in-memory `price_map`;
`PriceDoc` is the persisted `(region, timestamp)` document. Prices carry no
arithmetic in the sync engine, so they are modelled as `Int`. -/

structure SourceEntry where
  price : Int
  source_file : String
  file_timestamp : String
  fetched_at : String
deriving DecidableEq, Repr

structure SourceInfo where
  source_file : String
  file_timestamp : String
  fetched_at : String
deriving DecidableEq, Repr

/-- A persisted document. A field of value `none` models a document that lacks
the key; `some none` models a key stored with value `null`. -/
structure PriceDoc where
  region : String
  timestamp : String
  historical_price : Option (Option SourceEntry) := none
  dispatch_5min : Option (Option SourceEntry) := none
  dispatch_30min : Option (Option SourceEntry) := none
  Export_Price : Option (Option Int) := none
  Forecast_Price : Option (Option Int) := none
  last_updated : String := ""
deriving DecidableEq, Repr

/-! ## Derived prices (`mongodb_sync.py` lines 132-159) -/

/-- Priority chain `calculate_export_price`: historical, else p5min, else predispatch. -/
def calculate_export_price (historical p5min predispatch : Option Int) : Option Int :=
  match historical with
  | some v => some v
  | none =>
    match p5min with
    | some v => some v
    | none => predispatch

/-- Priority chain `calculate_forecast_price`: p5min, else predispatch. -/
def calculate_forecast_price (p5min predispatch : Option Int) : Option Int :=
  match p5min with
  | some v => some v
  | none => predispatch

/-! ## The per-field update of `sync_price_data_to_mongodb`
(`mongodb_sync.py` lines 540-667)

`fieldUpdate` computes the value `doc_updates[mongo_field]` the loop body
assigns for one data type. `.error ()` models the `AttributeError` raised by
`existing_doc[mongo_field].get(...)` when the stored field value is `null`
(`None.get` in Python), which the per-key `except` turns into an errored key. -/

/-- Existing file timestamp used by the monotonic check (lines 548-550):
`parse_timestamp_from_filename(existing['source_file']) or
existing['file_timestamp']`. -/
def existingFileTs (e : SourceEntry) : String :=
  match parse_timestamp_from_filename e.source_file with
  | some ts => ts
  | none => e.file_timestamp

/-- The inner provenance gate on a proposed `historical_price` source filename
(lines 562-583). `none` means the update is rejected; `some v` means the write
proceeds with cleaned filename `v`. An empty filename skips the validation. -/
def histGateValue (sfv : String) : Option String :=
  if sfv ≠ "" then
    if isForecastFile (toUpperStr sfv) then
      if containsStr sfv "," then
        let dfs := cleanDispatchList sfv
        if dfs ≠ [] then some (joinComma dfs) else none
      else none
    else if ¬ containsStr (toUpperStr sfv) "PUBLIC_DISPATCH" then none
    else some sfv
  else some sfv

/-- Cleaning applied to a kept existing `historical_price` entry
(lines 616-635 when the new data is older, and identically lines 636-664 when
no new data is offered). -/
def cleanKeepHist (e : SourceEntry) : Option SourceEntry :=
  if e.source_file ≠ "" then
    if containsStr e.source_file "," then
      let dfs := cleanDispatchList e.source_file
      if dfs ≠ [] then some { e with source_file := joinComma dfs } else none
    else if containsStr (toUpperStr e.source_file) "PUBLIC_PREDISPATCH" ||
            containsStr (toUpperStr e.source_file) "PUBLIC_P5MIN" then none
    else some e
  else some e

/-- Cleaning applied to the existing `historical_price` entry after a rejected
new write (lines 594-613). -/
def cleanRejectHist (e : SourceEntry) : Option SourceEntry :=
  if e.source_file ≠ "" &&
     (containsStr e.source_file "," ||
      containsStr (toUpperStr e.source_file) "PUBLIC_PREDISPATCH" ||
      containsStr (toUpperStr e.source_file) "PUBLIC_P5MIN") then
    if containsStr e.source_file "," then
      let dfs := cleanDispatchList e.source_file
      if dfs ≠ [] then some { e with source_file := joinComma dfs } else none
    else none
  else some e

/-- Accessors for `price_data` source metadata with the empty-string defaults the code uses. -/
@[simp] def infoSf : Option SourceInfo → String
  | some i => i.source_file
  | none => ""

@[simp] def infoTs : Option SourceInfo → String
  | some i => i.file_timestamp
  | none => ""

@[simp] def infoFetched : Option SourceInfo → String
  | some i => i.fetched_at
  | none => ""

/-- One iteration of the `for our_type, mongo_field in data_type_map.items()`
loop (lines 541-667): the value assigned to `doc_updates[mongo_field]`.
`docPresent` is `existing_doc` truthiness, `existingField` is the stored field
(`none` = key absent, `some none` = key stored as `null`). -/
def fieldUpdate (isHist docPresent : Bool) (existingField : Option (Option SourceEntry))
    (newPrice : Option Int) (newInfo : Option SourceInfo) :
    Except Unit (Option SourceEntry) :=
  match newPrice with
  | some p =>
    let new_file_ts := infoTs newInfo
    let blocked :=
      match existingField with
      | some (some e) =>
        docPresent && (existingFileTs e ≠ "" && new_file_ts ≠ "" &&
          strLtB new_file_ts (existingFileTs e))
      | _ => false
    if blocked then
      match existingField with
      | some (some e) => if isHist then .ok (cleanKeepHist e) else .ok (some e)
      | _ => .ok none
    else
      let sfv0 := infoSf newInfo
      let sfv := if isHist then histGateValue sfv0 else some sfv0
      if isHist = false || sfv.isSome then
        .ok (some { price := p, source_file := sfv.getD "",
                    file_timestamp := new_file_ts,
                    fetched_at := infoFetched newInfo })
      else
        if docPresent then
          match existingField with
          | some (some e) => .ok (cleanRejectHist e)
          | some none => .error ()
          | none => .ok none
        else .ok none
  | none =>
    if docPresent then
      match existingField with
      | some (some e) => if isHist then .ok (cleanKeepHist e) else .ok (some e)
      | some none => if isHist then .error () else .ok none
      | none => .ok none
    else .ok none

/-! ## The per-key sync step (`mongodb_sync.py` lines 510-711) -/

/-- The fresh data offered for one `(region, timestamp)` key
(the entry of `price_map`). -/
structure PriceData where
  historical : Option Int := none
  p5min : Option Int := none
  predispatch : Option Int := none
  sf_historical : Option SourceInfo := none
  sf_p5min : Option SourceInfo := none
  sf_predispatch : Option SourceInfo := none
deriving DecidableEq, Repr

inductive SyncOutcome where
  | skipped
  | inserted (doc : PriceDoc)
  | updated (doc : PriceDoc)
  | errored
deriving DecidableEq, Repr

def SyncOutcome.isUpdated : SyncOutcome → Bool
  | .updated _ => true
  | _ => false

/-- The access `doc_updates.get(f, ...).get('price') if doc_updates.get(f) else None`
(lines 670-681). -/
def entryPrice : Option SourceEntry → Option Int
  | some e => some e.price
  | none => none

/-- One source-entry field of the `has_changes` comparison (lines 691-695):
`field not in existing_doc or existing_doc.get(field) != doc_updates.get(field)`. -/
def fieldChangedB (old : Option (Option SourceEntry)) (newv : Option SourceEntry) : Bool :=
  match old with
  | none => true
  | some v => v ≠ newv

/-- Same comparison for the derived price fields. -/
def priceChangedB (old : Option (Option Int)) (newv : Option Int) : Bool :=
  match old with
  | none => true
  | some v => v ≠ newv

/-- The stored `historical_price` field of an optional existing document. -/
def exHistF : Option PriceDoc → Option (Option SourceEntry)
  | some d => d.historical_price
  | none => none

def ex5F : Option PriceDoc → Option (Option SourceEntry)
  | some d => d.dispatch_5min
  | none => none

def ex30F : Option PriceDoc → Option (Option SourceEntry)
  | some d => d.dispatch_30min
  | none => none

/-- The tail of the per-key loop body once `doc_updates` is computed
(lines 669-711): recompute `Export_Price`/`Forecast_Price`, compare with the
existing document (including the `Forecast_Price` backfill trigger), and skip,
insert or update. -/
def mkNewDoc (region price_timestamp now : String) (h p5 p30 : Option SourceEntry) :
    PriceDoc :=
  { region := region, timestamp := price_timestamp,
    historical_price := some h, dispatch_5min := some p5, dispatch_30min := some p30,
    Export_Price := some (calculate_export_price (entryPrice h) (entryPrice p5) (entryPrice p30)),
    Forecast_Price := some (calculate_forecast_price (entryPrice p5) (entryPrice p30)),
    last_updated := now }

def syncDecide (region price_timestamp now : String) (existing : Option PriceDoc)
    (h p5 p30 : Option SourceEntry) : SyncOutcome :=
  let exportP := calculate_export_price (entryPrice h) (entryPrice p5) (entryPrice p30)
  let forecast := calculate_forecast_price (entryPrice p5) (entryPrice p30)
  let newDoc : PriceDoc := mkNewDoc region price_timestamp now h p5 p30
  match existing with
  | some exDoc =>
    let needsBackfill : Bool := (exDoc.Forecast_Price.getD none) = none
    let hasChanges := needsBackfill ||
      fieldChangedB exDoc.historical_price h ||
      fieldChangedB exDoc.dispatch_5min p5 ||
      fieldChangedB exDoc.dispatch_30min p30 ||
      priceChangedB exDoc.Export_Price exportP ||
      priceChangedB exDoc.Forecast_Price forecast
    if hasChanges then .updated newDoc else .skipped
  | none => .inserted newDoc

/-- The per-key body of the sync loop: compute `doc_updates`, recompute the
derived prices, and decide between skip, insert and update (lines 510-711).
`errored` models the per-key `except` path. -/
def syncKey (region price_timestamp now : String) (pd : PriceData)
    (existing : Option PriceDoc) : SyncOutcome :=
  match fieldUpdate true existing.isSome (exHistF existing) pd.historical pd.sf_historical,
        fieldUpdate false existing.isSome (ex5F existing) pd.p5min pd.sf_p5min,
        fieldUpdate false existing.isSome (ex30F existing) pd.predispatch pd.sf_predispatch with
  | .ok h, .ok p5, .ok p30 => syncDecide region price_timestamp now existing h p5 p30
  | _, _, _ => .errored

/-- The store state after a per-key outcome: `skipped` and `errored` leave the
document as it was (the exception is raised before `update_one`). -/
def postState (o : SyncOutcome) (existing : Option PriceDoc) : Option PriceDoc :=
  match o with
  | .skipped => existing
  | .errored => existing
  | .inserted d => some d
  | .updated d => some d

/-- The `historical_price` value visible in a store state, with an absent
document, an absent key and a `null` value all reading as `none`. -/
def docHist (o : Option PriceDoc) : Option SourceEntry :=
  match o with
  | some d => d.historical_price.getD none
  | none => none

def doc5min (o : Option PriceDoc) : Option SourceEntry :=
  match o with
  | some d => d.dispatch_5min.getD none
  | none => none

def doc30min (o : Option PriceDoc) : Option SourceEntry :=
  match o with
  | some d => d.dispatch_30min.getD none
  | none => none

def docExport (o : Option PriceDoc) : Option Int :=
  match o with
  | some d => d.Export_Price.getD none
  | none => none

def docForecast (o : Option PriceDoc) : Option Int :=
  match o with
  | some d => d.Forecast_Price.getD none
  | none => none

/-! ## `fetch_dispatch_historical.store_to_mongodb` (lines 293-394)

The result is `none` when the operation returns `False` after the provenance
gate without touching the store, and `some doc` for the upserted document.
`$set` keeps unlisted keys, and `update_doc` only carries `dispatch_5min` /
`dispatch_30min` when the existing document had them, so an update preserves
all other fields of the existing document. -/

def store_to_mongodb (existing : Option PriceDoc) (region timestamp : String)
    (price : Int) (source_file : String) (now : String) : Option PriceDoc :=
  if source_file ≠ "" &&
     (isForecastFile (toUpperStr source_file) ||
      ¬ containsStr (toUpperStr source_file) "PUBLIC_DISPATCH") then
    none
  else
    let fileTs := match parse_timestamp_from_filename source_file with
      | some ts => ts
      | none => ""
    let hist0 : SourceEntry :=
      { price := price, source_file := source_file,
        file_timestamp := fileTs, fetched_at := now }
    let hist : SourceEntry :=
      match existing with
      | some d =>
        match d.historical_price with
        | some (some h) =>
          if h.source_file ≠ "" && containsStr h.source_file "," then
            let dfs := cleanDispatchList h.source_file
            if dfs ≠ [] then { hist0 with source_file := joinComma dfs }
            else hist0
          else hist0
        | _ => hist0
      | none => hist0
    match existing with
    | some d =>
      some { d with region := region, timestamp := timestamp,
                    historical_price := some (some hist), last_updated := now }
    | none =>
      some { region := region, timestamp := timestamp,
             historical_price := some (some hist), last_updated := now }

/-! ## The dispatch CSV parser
(`fetch_dispatch_historical.parse_dispatch_csv`, lines 163-277)

Lines arrive already split on `','` (the code's `line.strip().split(',')`);
`datetime.strptime` over the six accepted formats and `float` become the
parameters `strptime` and `parsePrice` (the emitted price folds in
`round(price, 2)`), with `none` for the exceptions the row handler catches.
Timestamps are `Int` seconds; the fixed UTC+10 localization is a constant
offset shared by row timestamps and the expected settlement instant, so it
cancels in the only use, the difference `dt_local - expected_settlement_date`. -/

structure ParserCtx where
  strptime : String → Option Int
  parsePrice : String → Option Int

structure ParseState where
  hdr : Option (List String × Nat × Nat × Nat) := none
  results : List (String × Int × Int) := []
deriving DecidableEq, Repr

/-- Assignment `results[key] = value` on an association list (Python dict assignment). -/
def insertKV {α : Type} (key : String) (v : α) : List (String × α) → List (String × α)
  | [] => [(key, v)]
  | p :: rest => if p.1 = key then (key, v) :: rest else p :: insertKV key v rest

/-- Lookup `column_headers.index(name)` as an option. -/
def idxOf (headers : List String) (name : String) : Option Nat :=
  headers.indexOf? name

/-- Python `s.strip` with a double-quote argument: remove all leading and trailing double quotes. -/
def stripQuotes (s : String) : String :=
  String.mk (((s.toList.dropWhile (· == '"')).reverse.dropWhile (· == '"')).reverse)

/-- One line of `parse_dispatch_csv`'s loop. `.error ()` models the
`return {}` taken when the `DREGION` header lacks a required column. -/
def parseStep (ctx : ParserCtx) (expected : Int) (regions : List String)
    (s : ParseState) (parts : List String) : Except Unit ParseState :=
  match parts with
  | [] => .ok s
  | row_type :: _ =>
    if row_type = "I" && decide (parts.length > 2) && parts.getD 1 "" = "DREGION" then
      let headers := (parts.drop 4).map trimStr
      match idxOf headers "REGIONID", idxOf headers "SETTLEMENTDATE", idxOf headers "RRP" with
      | some ri, some di, some pi => .ok { s with hdr := some (headers, ri, di, pi) }
      | _, _, _ => .error ()
    else
      match s.hdr with
      | some (headers, ri, di, pi) =>
        if row_type = "D" && decide (parts.length > 2) && parts.getD 1 "" = "DREGION" &&
           ¬ headers.isEmpty then
          let values := parts.drop 4
          if values.length ≤ max ri (max di pi) then .ok s
          else
            let row_region := trimStr (values.getD ri "")
            if row_region ∈ regions then
              let dt_str := stripQuotes (trimStr (values.getD di ""))
              match ctx.strptime dt_str with
              | none => .ok s
              | some dt_local =>
                let time_diff_seconds := (dt_local - expected).natAbs
                if time_diff_seconds > 60 then .ok s
                else
                  let dt_final := if time_diff_seconds > 0 then expected else dt_local
                  match ctx.parsePrice (trimStr (values.getD pi "")) with
                  | none => .ok s
                  | some price =>
                    .ok { s with results := insertKV row_region (dt_final, price) s.results }
            else .ok s
        else .ok s
      | none => .ok s

def parseFold (ctx : ParserCtx) (expected : Int) (regions : List String) :
    ParseState → List (List String) → Except Unit ParseState
  | s, [] => .ok s
  | s, l :: rest =>
    match parseStep ctx expected regions s l with
    | .ok s2 => parseFold ctx expected regions s2 rest
    | .error e => .error e

/-- The parser `parse_dispatch_csv`: region to timestamp-price pair (last row wins),
empty on a structural error. -/
def parse_dispatch_csv (ctx : ParserCtx) (expected : Int) (regions : List String)
    (lines : List (List String)) : List (String × Int × Int) :=
  match parseFold ctx expected regions {} lines with
  | .ok s => s.results
  | .error _ => []

/-! ## `fetch_prices.smart_fetch_with_retry` (lines 206-271)

The network call `get_latest_file_url` for one strategy becomes the parameter
`fetch`; an attempt that raises or finds nothing is `none`. -/

def USER_AGENTS : List (Option String) :=
  [some "Mozilla/5.0 (Windows NT 10.0; Win64; x64) AppleWebKit/537.36 (KHTML, like Gecko) Chrome/120.0.0.0 Safari/537.36",
   some "Mozilla/5.0 (Windows NT 10.0; Win64; x64; rv:121.0) Gecko/20100101 Firefox/121.0",
   some "Mozilla/5.0 (Windows NT 10.0; Win64; x64) AppleWebKit/537.36 (KHTML, like Gecko) Chrome/120.0.0.0 Safari/537.36 Edg/120.0.0.0",
   some "Mozilla/5.0 (Macintosh; Intel Mac OS X 10_15_7) AppleWebKit/605.1.15 (KHTML, like Gecko) Version/17.1 Safari/605.1.15",
   some "Mozilla/5.0 (Macintosh; Intel Mac OS X 10_15_7) AppleWebKit/537.36 (KHTML, like Gecko) Chrome/120.0.0.0 Safari/537.36",
   none]

/-- The `strategies` list: `(ua, i % 2 == 1)` over `USER_AGENTS[:max_attempts]`. -/
def fetchStrategies (max_attempts : Nat) : List (Option String × Bool) :=
  (USER_AGENTS.take max_attempts).mapIdx (fun i ua => (ua, i % 2 = 1))

/-- Python truthiness of the optional baseline string. -/
def strTruthy : Option String → Bool
  | none => false
  | some s => s ≠ ""

/-- Condition `not best_timestamp or timestamp > best_timestamp`. -/
def beatsBaseline (baseline : Option String) (ts : String) : Bool :=
  ¬ strTruthy baseline || strLtB (baseline.getD "") ts

/-- The attempt loop: `best_result`/`best_timestamp` only change on the
break, so the loop returns the first strictly-newer result, else the initial
`best_result = None`. -/
def smartFetchGo (fetch : Option String → Bool → Option (String × String))
    (baseline : Option String) : List (Option String × Bool) → Option (String × String)
  | [] => none
  | (ua, cb) :: rest =>
    match fetch ua cb with
    | some r => if beatsBaseline baseline r.2 then some r else smartFetchGo fetch baseline rest
    | none => smartFetchGo fetch baseline rest

/-- Entry point `smart_fetch_with_retry`: both final branches return `best_result`. -/
def smart_fetch_with_retry (fetch : Option String → Bool → Option (String × String))
    (current_cached_timestamp : Option String) (max_attempts : Nat) :
    Option (String × String) :=
  smartFetchGo fetch current_cached_timestamp (fetchStrategies max_attempts)

/-! ## `fetch_prices.save_to_cache` (lines 721-762)

A per-class cache is an association list from file identifier to the cached
payload; `α` stands for the parsed report data, which the cache logic never
inspects. -/

/-- Python `max` over the keys of a possibly-empty dict. -/
def maxKey : List String → Option String
  | [] => none
  | k :: rest =>
    match maxKey rest with
    | none => some k
    | some m => some (if strLeB k m then m else k)

def lookupKV {α : Type} (key : String) : List (String × α) → Option α
  | [] => none
  | p :: rest => if p.1 = key then some p.2 else lookupKV key rest

/-- Sorted-descending insertion (`sorted(keys, reverse=True)` builder). -/
def insertDesc (x : String) : List String → List String
  | [] => [x]
  | y :: rest => if strLeB y x then x :: y :: rest else y :: insertDesc x rest

def sortDesc (l : List String) : List String :=
  l.foldr insertDesc []

/-- Bound `max_entries = 24 if data_type == 'dispatch' else 10`. -/
def maxEntriesFor (data_type : String) : Nat :=
  if data_type = "dispatch" then 24 else 10

/-- The cache write `save_to_cache` restricted to one class's sub-dictionary: reject a key
older than the newest cached key, else insert and, when over the retention
bound, keep only the most recent `max_entries` keys
(`{k: cache[k] for k in sorted_keys[:max_entries]}`). -/
def save_to_cache {α : Type} (data_type : String) (timestamp_key : String) (data : α)
    (cache : List (String × α)) : List (String × α) :=
  let proceed :=
    match maxKey (cache.map Prod.fst) with
    | some latest => !(strLtB timestamp_key latest)
    | none => true
  if proceed then
    let inserted := insertKV timestamp_key data cache
    let max_entries := maxEntriesFor data_type
    if inserted.length > max_entries then
      let keep := (sortDesc (inserted.map Prod.fst)).take max_entries
      keep.filterMap (fun k => (lookupKV k inserted).map (fun v => (k, v)))
    else inserted
  else cache

/-! ## Run summary and exit code
(`mongodb_sync.sync_price_data_to_mongodb` lines 240-737 and `main`
lines 740-764) -/

structure SyncCounts where
  inserted : Nat := 0
  updated : Nat := 0
  skipped : Nat := 0
  errored : Nat := 0
deriving DecidableEq, Repr

def tallyOutcome (c : SyncCounts) : SyncOutcome → SyncCounts
  | .skipped => { c with skipped := c.skipped + 1 }
  | .inserted _ => { c with inserted := c.inserted + 1 }
  | .updated _ => { c with updated := c.updated + 1 }
  | .errored => { c with errored := c.errored + 1 }

/-- The key loop over one region's `price_map`: every key is processed, an
errored key only adds to the error count. -/
def runKeys (region now : String)
    (keys : List (String × PriceData × Option PriceDoc)) : List SyncOutcome :=
  keys.map (fun k => syncKey region k.1 now k.2.1 k.2.2)

def tallyRun (outcomes : List SyncOutcome) : SyncCounts :=
  outcomes.foldl tallyOutcome {}

/-- The return value of `sync_price_data_to_mongodb`: `False` without a store
connection, else `len(errors) == 0`, where `errors` collects both the fetch
errors and the per-key persistence errors. -/
def sync_price_data_result (connected : Bool) (fetchErrors : Nat)
    (outcomes : List SyncOutcome) : Bool :=
  connected && decide (fetchErrors + (tallyRun outcomes).errored = 0)

/-- Entry point `main`: `sys.exit(1)` when the sync reported failure, exit 0 otherwise. -/
def mainExitCode (connected : Bool) (fetchErrors : Nat)
    (outcomes : List SyncOutcome) : Nat :=
  if sync_price_data_result connected fetchErrors outcomes then 0 else 1

/-! ## Retention pass -/

/-- Forecast-retention horizon: 2 hours, in seconds. -/
def FORECAST_RETENTION_SECONDS : Int := 7200

/-- Modelled from the spec: the retention pass of the reconciliation engine
(spec section 4.5). The sync implementation the scheduler actually invokes
(`sync_to_mongodb` / `sync_historical_only`, imported by
`power_price/auto_sync.py`) is not among the available sources;
`mongodb_sync.sync_price_data_to_mongodb` is an earlier entry point and
contains no retention logic, and no other available file unsets forecast
fields by age. Per the spec: each sync cycle scans records whose settlement
timestamp is older than the forecast-retention horizon (default 2 hours)
before now, unsets `five_minute_forecast`/`thirty_minute_forecast`,
recomputes `best_forecast` from the forecast sources that remain, and leaves
`historical_price` untouched. `tsOf` decodes a record's settlement timestamp
to seconds. -/
def retentionPass (tsOf : PriceDoc → Int) (now : Int) (docs : List PriceDoc) :
    List PriceDoc :=
  docs.map (fun d =>
    if tsOf d < now - FORECAST_RETENTION_SECONDS then
      { d with dispatch_5min := none, dispatch_30min := none,
               Forecast_Price := some (calculate_forecast_price none none) }
    else d)

/-- A stored `source_file` that is a single filename free of forecast-class
markers: the cleanup passes of `mongodb_sync.py` (lines 596-613, 618-634,
638-658) leave such a provenance block untouched. Every `historical_price`
entry the inner gate itself admits through a non-comma filename satisfies
this. -/
def cleanSource (s : String) : Prop :=
  containsStr s "," = false ∧ containsStr (toUpperStr s) "PUBLIC_PREDISPATCH" = false ∧
  containsStr (toUpperStr s) "PUBLIC_P5MIN" = false

/-- A store state whose visible `historical_price` provenance, if any, is
clean in the sense of `cleanSource`. -/
def cleanHistDoc : Option PriceDoc → Prop
  | some d =>
    match d.historical_price with
    | some (some e) => cleanSource e.source_file
    | _ => True
  | none => True

/-! ## Helper lemmas -/

theorem cleanKeepHist_eq (e : SourceEntry) (h : cleanSource e.source_file) :
    cleanKeepHist e = some e := by
  obtain ⟨h1, h2, h3⟩ := h
  simp [cleanKeepHist, h1, h2, h3]

theorem cleanRejectHist_eq (e : SourceEntry) (h : cleanSource e.source_file) :
    cleanRejectHist e = some e := by
  obtain ⟨h1, h2, h3⟩ := h
  simp [cleanRejectHist, h1, h2, h3]

/-- A non-historical field update never raises: only the `historical_price`
branches dereference a possibly-`null` stored value. -/
theorem fieldUpdate_nonhist_ok (docPresent : Bool) (f : Option (Option SourceEntry))
    (np : Option Int) (ni : Option SourceInfo) :
    ∃ v, fieldUpdate false docPresent f np ni = .ok v := by
  rcases np with _ | p
  · rcases docPresent with _ | _
    · exact ⟨none, rfl⟩
    · rcases f with _ | (_ | e)
      · exact ⟨none, rfl⟩
      · exact ⟨none, rfl⟩
      · exact ⟨some e, rfl⟩
  · simp only [fieldUpdate]
    rcases f with _ | (_ | e)
    · exact ⟨_, rfl⟩
    · exact ⟨_, rfl⟩
    · by_cases hb : (docPresent && (existingFileTs e ≠ "" &&
        infoTs ni ≠ "" && strLtB (infoTs ni) (existingFileTs e))) = true
      · rw [if_pos hb]
        exact ⟨some e, rfl⟩
      · rw [if_neg hb]
        exact ⟨_, rfl⟩

/-- Monotonic keep for a forecast-class field: an offer with a strictly older
file identifier leaves the stored entry. -/
theorem fieldUpdate_nonhist_keep (e : SourceEntry) (p : Int) (i : SourceInfo)
    (hex : existingFileTs e ≠ "") (hnew : i.file_timestamp ≠ "")
    (hlt : strLtB i.file_timestamp (existingFileTs e) = true) :
    fieldUpdate false true (some (some e)) (some p) (some i) = .ok (some e) := by
  simp [fieldUpdate, hex, hnew, hlt]

/-- A forecast-class offer whose file identifier is not older replaces the
stored entry. -/
theorem fieldUpdate_nonhist_replace (f : Option (Option SourceEntry)) (p : Int)
    (i : SourceInfo) (docPresent : Bool)
    (hge : strLtB i.file_timestamp (match f with
      | some (some e) => existingFileTs e
      | _ => "") = false) :
    fieldUpdate false docPresent f (some p) (some i) =
      .ok (some { price := p, source_file := i.source_file,
                  file_timestamp := i.file_timestamp, fetched_at := i.fetched_at }) := by
  rcases f with _ | (_ | e)
  · simp [fieldUpdate]
  · simp [fieldUpdate]
  · simp at hge
    simp [fieldUpdate, hge]

/-- Monotonic keep for `historical_price` with a clean stored provenance. -/
theorem fieldUpdate_hist_keep (e : SourceEntry) (p : Int) (i : SourceInfo)
    (hc : cleanSource e.source_file)
    (hex : existingFileTs e ≠ "") (hnew : i.file_timestamp ≠ "")
    (hlt : strLtB i.file_timestamp (existingFileTs e) = true) :
    fieldUpdate true true (some (some e)) (some p) (some i) = .ok (some e) := by
  simp [fieldUpdate, hex, hnew, hlt, cleanKeepHist_eq e hc]

/-- A gate-accepted `historical_price` offer that is not older replaces the
stored entry, carrying the gate's cleaned filename. -/
theorem fieldUpdate_hist_replace (f : Option (Option SourceEntry)) (p : Int)
    (i : SourceInfo) (docPresent : Bool) (v : String)
    (hg : histGateValue i.source_file = some v)
    (hge : strLtB i.file_timestamp (match f with
      | some (some e) => existingFileTs e
      | _ => "") = false) :
    fieldUpdate true docPresent f (some p) (some i) =
      .ok (some { price := p, source_file := v,
                  file_timestamp := i.file_timestamp, fetched_at := i.fetched_at }) := by
  rcases f with _ | (_ | e)
  · simp [fieldUpdate, hg]
  · simp [fieldUpdate, hg]
  · simp at hge
    simp [fieldUpdate, hge, hg]

/-- A gate-rejected `historical_price` offer leaves a clean stored entry
unchanged. -/
theorem fieldUpdate_hist_rejected_clean (e : SourceEntry) (p : Int) (i : SourceInfo)
    (hc : cleanSource e.source_file)
    (hg : histGateValue i.source_file = none) :
    fieldUpdate true true (some (some e)) (some p) (some i) = .ok (some e) := by
  by_cases b1 : existingFileTs e = ""
  · simp [fieldUpdate, b1, hg, cleanRejectHist_eq e hc]
  · by_cases b2 : i.file_timestamp = ""
    · simp [fieldUpdate, b1, b2, hg, cleanRejectHist_eq e hc]
    · by_cases b3 : strLtB i.file_timestamp (existingFileTs e) = true
      · simp [fieldUpdate, b1, b2, b3, cleanKeepHist_eq e hc]
      · simp [fieldUpdate, b1, b2, b3, hg, cleanRejectHist_eq e hc]

/-- A gate-rejected `historical_price` offer against an absent field stays
absent. -/
theorem fieldUpdate_hist_rejected_absent (docPresent : Bool) (p : Int) (i : SourceInfo)
    (hg : histGateValue i.source_file = none) :
    fieldUpdate true docPresent none (some p) (some i) = .ok none := by
  rcases docPresent with _ | _ <;> simp [fieldUpdate, hg]

/-- A gate-rejected `historical_price` offer against a stored `null` raises
(`None.get` in the cleanup), erroring the key before any write. -/
theorem fieldUpdate_hist_rejected_null (p : Int) (i : SourceInfo)
    (hg : histGateValue i.source_file = none) :
    fieldUpdate true true (some none) (some p) (some i) = .error () := by
  simp [fieldUpdate, hg]

/-- With no offered data and a clean stored entry, the historical field is
kept. -/
theorem fieldUpdate_hist_none_clean (e : SourceEntry) (ni : Option SourceInfo)
    (hc : cleanSource e.source_file) :
    fieldUpdate true true (some (some e)) none ni = .ok (some e) := by
  simp [fieldUpdate, cleanKeepHist_eq e hc]

theorem syncKey_eq (region ts now : String) (pd : PriceData) (existing : Option PriceDoc)
    (h p5 p30 : Option SourceEntry)
    (hh : fieldUpdate true existing.isSome (exHistF existing)
      pd.historical pd.sf_historical = .ok h)
    (h5 : fieldUpdate false existing.isSome (ex5F existing)
      pd.p5min pd.sf_p5min = .ok p5)
    (h30 : fieldUpdate false existing.isSome (ex30F existing)
      pd.predispatch pd.sf_predispatch = .ok p30) :
    syncKey region ts now pd existing = syncDecide region ts now existing h p5 p30 := by
  simp [syncKey, hh, h5, h30]

theorem syncKey_err (region ts now : String) (pd : PriceData) (existing : Option PriceDoc)
    (hh : fieldUpdate true existing.isSome (exHistF existing)
      pd.historical pd.sf_historical = .error ()) :
    syncKey region ts now pd existing = .errored := by
  simp [syncKey, hh]

theorem fieldChangedB_eq_false {old : Option (Option SourceEntry)}
    {newv : Option SourceEntry} : fieldChangedB old newv = false ↔ old = some newv := by
  rcases old with _ | v <;> simp [fieldChangedB]

theorem priceChangedB_eq_false {old : Option (Option Int)} {newv : Option Int} :
    priceChangedB old newv = false ↔ old = some newv := by
  rcases old with _ | v <;> simp [priceChangedB]

/-- Against an existing document the per-key decision either updates to the
freshly assembled document or skips, and a skip certifies that all five
compared fields already store exactly the computed values. -/
theorem syncDecide_cases (region ts now : String) (exDoc : PriceDoc)
    (h p5 p30 : Option SourceEntry) :
    syncDecide region ts now (some exDoc) h p5 p30 =
      .updated (mkNewDoc region ts now h p5 p30) ∨
    (syncDecide region ts now (some exDoc) h p5 p30 = .skipped ∧
     exDoc.historical_price = some h ∧
     exDoc.dispatch_5min = some p5 ∧
     exDoc.dispatch_30min = some p30 ∧
     exDoc.Export_Price =
       some (calculate_export_price (entryPrice h) (entryPrice p5) (entryPrice p30)) ∧
     exDoc.Forecast_Price =
       some (calculate_forecast_price (entryPrice p5) (entryPrice p30))) := by
  simp only [syncDecide]
  split
  · exact Or.inl rfl
  · rename_i hch
    rw [Bool.not_eq_true] at hch
    simp only [Bool.or_eq_false_iff] at hch
    obtain ⟨⟨⟨⟨⟨-, c1⟩, c2⟩, c3⟩, c4⟩, c5⟩ := hch
    exact Or.inr ⟨rfl, fieldChangedB_eq_false.mp c1, fieldChangedB_eq_false.mp c2,
      fieldChangedB_eq_false.mp c3, priceChangedB_eq_false.mp c4,
      priceChangedB_eq_false.mp c5⟩

/-- The post-state of the per-key decision always carries exactly the computed
`doc_updates` values for the five compared fields: an insert or update writes
them, and a skip implies they already coincide with the stored ones. -/
theorem syncDecide_postFields (region ts now : String) (existing : Option PriceDoc)
    (h p5 p30 : Option SourceEntry) :
    docHist (postState (syncDecide region ts now existing h p5 p30) existing) = h ∧
    doc5min (postState (syncDecide region ts now existing h p5 p30) existing) = p5 ∧
    doc30min (postState (syncDecide region ts now existing h p5 p30) existing) = p30 ∧
    docExport (postState (syncDecide region ts now existing h p5 p30) existing) =
      calculate_export_price (entryPrice h) (entryPrice p5) (entryPrice p30) ∧
    docForecast (postState (syncDecide region ts now existing h p5 p30) existing) =
      calculate_forecast_price (entryPrice p5) (entryPrice p30) := by
  rcases existing with _ | exDoc
  · simp [syncDecide, postState, docHist, doc5min, doc30min, docExport, docForecast,
      mkNewDoc]
  · rcases syncDecide_cases region ts now exDoc h p5 p30 with hu | ⟨hs, f1, f2, f3, f4, f5⟩
    · rw [hu]
      simp [postState, docHist, doc5min, doc30min, docExport, docForecast, mkNewDoc]
    · rw [hs]
      simp [postState, docHist, doc5min, doc30min, docExport, docForecast, f1, f2, f3, f4, f5]

/-! ## Claim C5 -/

/-- C5: for every combination of optional source prices, the derived best
price (`Export_Price`) is the historical price if present, else the
five-minute forecast price, else the thirty-minute forecast price, else
absent; the derived best forecast (`Forecast_Price`) is the five-minute
forecast price if present, else the thirty-minute forecast price, else
absent; and the historical price never contributes to the forecast
derivation (the post-state forecast of the per-key sync decision is the same
for any two historical field values). -/
theorem derived_price_priority_C5 :
    (∀ (v : Int) (p5 p30 : Option Int), calculate_export_price (some v) p5 p30 = some v) ∧
    (∀ (w : Int) (p30 : Option Int), calculate_export_price none (some w) p30 = some w) ∧
    (∀ p30 : Option Int, calculate_export_price none none p30 = p30) ∧
    (∀ (w : Int) (p30 : Option Int), calculate_forecast_price (some w) p30 = some w) ∧
    (∀ p30 : Option Int, calculate_forecast_price none p30 = p30) ∧
    (∀ (region ts now : String) (existing : Option PriceDoc)
       (h h2 p5 p30 : Option SourceEntry),
       docForecast (postState (syncDecide region ts now existing h p5 p30) existing) =
       docForecast (postState (syncDecide region ts now existing h2 p5 p30) existing)) := by
  refine ⟨fun v p5 p30 => rfl, fun w p30 => rfl, fun p30 => rfl,
    fun w p30 => rfl, fun p30 => rfl, fun region ts now existing h h2 p5 p30 => ?_⟩
  rw [(syncDecide_postFields region ts now existing h p5 p30).2.2.2.2,
      (syncDecide_postFields region ts now existing h2 p5 p30).2.2.2.2]

/-! ## Claim C1 -/

/-- C1 counterexample: the claim states that a `historical_price` write whose
source filename is not a recognized dispatch file is rejected with the field
left as it was. The empty filename is not a recognized dispatch file, yet
`store_to_mongodb` skips the validation for it (`if source_file:`) and
populates `historical_price` on a previously absent record. -/
theorem provenance_gate_C1_counterexample :
    containsStr (toUpperStr "") "PUBLIC_DISPATCH" = false ∧
    docHist (store_to_mongodb none "VIC1" "2025-11-19T14:05:00+10:00" 50 "" "t0") ≠
      docHist none := by
  constructor
  · rfl
  · intro hcontra
    simp [store_to_mongodb, docHist] at hcontra

/-- C1 amended: a `historical_price` write whose source filename is nonempty
and either of a forecast class or not a recognized dispatch file is rejected.
The store operation (`store_to_mongodb`) then performs no write at all; the
sync operation leaves the visible `historical_price` unchanged provided the
existing provenance, if any, is itself a clean single dispatch filename (a
forecast-tainted or comma-separated existing provenance is instead cleaned or
removed by the cleanup branches, and an existing `null` value makes the key
error before any write). An empty filename bypasses the gate. -/
theorem provenance_gate_amended_C1 :
    (∀ (existing : Option PriceDoc) (region ts : String) (price : Int) (sf now : String),
       sf ≠ "" →
       (isForecastFile (toUpperStr sf) = true ∨
        containsStr (toUpperStr sf) "PUBLIC_DISPATCH" = false) →
       store_to_mongodb existing region ts price sf now = none) ∧
    (∀ (region ts now : String) (pd : PriceData) (existing : Option PriceDoc)
       (i : SourceInfo),
       pd.sf_historical = some i →
       histGateValue i.source_file = none →
       cleanHistDoc existing →
       docHist (postState (syncKey region ts now pd existing) existing) =
         docHist existing) := by
  constructor
  · intro existing region ts price sf now hsf hbad
    rcases hbad with hfc | hnd
    · simp [store_to_mongodb, hsf, hfc]
    · simp [store_to_mongodb, hsf, hnd]
  · intro region ts now pd existing i hsf hg hclean
    obtain ⟨v5, h5⟩ := fieldUpdate_nonhist_ok existing.isSome (ex5F existing)
      pd.p5min pd.sf_p5min
    obtain ⟨v30, h30⟩ := fieldUpdate_nonhist_ok existing.isSome (ex30F existing)
      pd.predispatch pd.sf_predispatch
    rcases hex : existing with _ | d
    · subst hex
      rcases hp : pd.historical with _ | p
      · have hok : fieldUpdate true (none : Option PriceDoc).isSome (exHistF none)
            pd.historical pd.sf_historical = .ok none := by
          rw [hp]; rfl
        rw [syncKey_eq region ts now pd none none v5 v30 hok h5 h30]
        rw [(syncDecide_postFields region ts now none none v5 v30).1]
        rfl
      · have hok : fieldUpdate true (none : Option PriceDoc).isSome (exHistF none)
            pd.historical pd.sf_historical = .ok none := by
          rw [hp, hsf]
          exact fieldUpdate_hist_rejected_absent false p i hg
        rw [syncKey_eq region ts now pd none none v5 v30 hok h5 h30]
        rw [(syncDecide_postFields region ts now none none v5 v30).1]
        rfl
    · subst hex
      rcases hf : d.historical_price with _ | hv
      · have hok : fieldUpdate true (some d).isSome (exHistF (some d))
            pd.historical pd.sf_historical = .ok none := by
          simp only [exHistF, hf, Option.isSome_some]
          rcases hp : pd.historical with _ | p
          · rfl
          · rw [hsf]; exact fieldUpdate_hist_rejected_absent true p i hg
        rw [syncKey_eq region ts now pd (some d) none v5 v30 hok h5 h30]
        rw [(syncDecide_postFields region ts now (some d) none v5 v30).1]
        simp [docHist, hf]
      · rcases hv with _ | e
        · -- stored null: the key errors in every offered case, or stays null
          rcases hp : pd.historical with _ | p
          · have hok : fieldUpdate true (some d).isSome (exHistF (some d))
                pd.historical pd.sf_historical = .error () := by
              simp only [exHistF, hf, hp, Option.isSome_some]
              rfl
            rw [syncKey_err region ts now pd (some d) hok]
            rfl
          · have hok : fieldUpdate true (some d).isSome (exHistF (some d))
                pd.historical pd.sf_historical = .error () := by
              simp only [exHistF, hf, hp, hsf, Option.isSome_some]
              exact fieldUpdate_hist_rejected_null p i hg
            rw [syncKey_err region ts now pd (some d) hok]
            rfl
        · have hcl : cleanSource e.source_file := by
            simpa [cleanHistDoc, hf] using hclean
          have hok : fieldUpdate true (some d).isSome (exHistF (some d))
              pd.historical pd.sf_historical = .ok (some e) := by
            simp only [exHistF, hf, Option.isSome_some]
            rcases hp : pd.historical with _ | p
            · rw [hsf]; exact fieldUpdate_hist_none_clean e (some i) hcl
            · rw [hsf]; exact fieldUpdate_hist_rejected_clean e p i hcl hg
          rw [syncKey_eq region ts now pd (some d) (some e) v5 v30 hok h5 h30]
          rw [(syncDecide_postFields region ts now (some d) (some e) v5 v30).1]
          simp [docHist, hf]

theorem lexLt_asymm : ∀ a b : List Char, lexLt a b = true → lexLt b a = false := by
  intro a
  induction a with
  | nil => intro b h; cases b <;> simp_all [lexLt]
  | cons x xs ih =>
    intro b h
    cases b with
    | nil => simp [lexLt] at h
    | cons y ys =>
      simp only [lexLt] at h ⊢
      by_cases hxy : x < y
      · simp [hxy, lt_asymm hxy]
      · by_cases hyx : y < x
        · simp [hxy, hyx] at h
        · simp only [hxy, hyx, if_false] at h ⊢
          simp [ih ys h]

theorem strLtB_asymm {a b : String} (h : strLtB a b = true) : strLtB b a = false :=
  lexLt_asymm a.toList b.toList h

/-! ## Claim C2 -/

/-- C2: monotonic per-field writes. For each persisted field with existing
provenance file identifier `T` (both identifiers nonempty): an offer with
file identifier `< T` leaves the field unchanged (for `historical_price`,
with a clean stored provenance); an offer with file identifier `> T`
replaces the field (for `historical_price`, when the gate admits the offered
filename); and when all three fields are offered strictly older data, the
post-state keeps every field and both derived prices exactly as stored. -/
theorem monotonic_write_C2 :
    (∀ (e : SourceEntry) (p : Int) (i : SourceInfo),
       existingFileTs e ≠ "" → i.file_timestamp ≠ "" →
       strLtB i.file_timestamp (existingFileTs e) = true →
       fieldUpdate false true (some (some e)) (some p) (some i) = .ok (some e)) ∧
    (∀ (e : SourceEntry) (p : Int) (i : SourceInfo),
       cleanSource e.source_file →
       existingFileTs e ≠ "" → i.file_timestamp ≠ "" →
       strLtB i.file_timestamp (existingFileTs e) = true →
       fieldUpdate true true (some (some e)) (some p) (some i) = .ok (some e)) ∧
    (∀ (e : SourceEntry) (p : Int) (i : SourceInfo),
       strLtB (existingFileTs e) i.file_timestamp = true →
       fieldUpdate false true (some (some e)) (some p) (some i) =
         .ok (some { price := p, source_file := i.source_file,
                     file_timestamp := i.file_timestamp, fetched_at := i.fetched_at })) ∧
    (∀ (e : SourceEntry) (p : Int) (i : SourceInfo) (v : String),
       histGateValue i.source_file = some v →
       strLtB (existingFileTs e) i.file_timestamp = true →
       fieldUpdate true true (some (some e)) (some p) (some i) =
         .ok (some { price := p, source_file := v,
                     file_timestamp := i.file_timestamp, fetched_at := i.fetched_at })) ∧
    (∀ (region ts now : String) (pd : PriceData) (d : PriceDoc)
       (eh e5 e30 : SourceEntry) (ph p5v p30v : Int) (ih i5 i30 : SourceInfo),
       d.historical_price = some (some eh) →
       d.dispatch_5min = some (some e5) →
       d.dispatch_30min = some (some e30) →
       cleanSource eh.source_file →
       pd.historical = some ph → pd.sf_historical = some ih →
       pd.p5min = some p5v → pd.sf_p5min = some i5 →
       pd.predispatch = some p30v → pd.sf_predispatch = some i30 →
       existingFileTs eh ≠ "" → ih.file_timestamp ≠ "" →
       strLtB ih.file_timestamp (existingFileTs eh) = true →
       existingFileTs e5 ≠ "" → i5.file_timestamp ≠ "" →
       strLtB i5.file_timestamp (existingFileTs e5) = true →
       existingFileTs e30 ≠ "" → i30.file_timestamp ≠ "" →
       strLtB i30.file_timestamp (existingFileTs e30) = true →
       d.Export_Price = some (calculate_export_price
         (some eh.price) (some e5.price) (some e30.price)) →
       d.Forecast_Price = some (calculate_forecast_price
         (some e5.price) (some e30.price)) →
       docHist (postState (syncKey region ts now pd (some d)) (some d)) = some eh ∧
       doc5min (postState (syncKey region ts now pd (some d)) (some d)) = some e5 ∧
       doc30min (postState (syncKey region ts now pd (some d)) (some d)) = some e30 ∧
       docExport (postState (syncKey region ts now pd (some d)) (some d)) =
         docExport (some d) ∧
       docForecast (postState (syncKey region ts now pd (some d)) (some d)) =
         docForecast (some d)) := by
  refine ⟨fun e p i hex hnew hlt => fieldUpdate_nonhist_keep e p i hex hnew hlt,
    fun e p i hc hex hnew hlt => fieldUpdate_hist_keep e p i hc hex hnew hlt,
    fun e p i hgt => ?_, fun e p i v hg hgt => ?_, ?_⟩
  · exact fieldUpdate_nonhist_replace (some (some e)) p i true (strLtB_asymm hgt)
  · exact fieldUpdate_hist_replace (some (some e)) p i true v hg (strLtB_asymm hgt)
  · intro region ts now pd d eh e5 e30 ph p5v p30v ih i5 i30
      hdh hd5 hd30 hc hph hih hp5 hi5 hp30 hi30
      hexh hnewh hlth hex5 hnew5 hlt5 hex30 hnew30 hlt30 hE hF
    have hok : fieldUpdate true (some d).isSome (exHistF (some d))
        pd.historical pd.sf_historical = .ok (some eh) := by
      simp only [exHistF, hdh, hph, hih, Option.isSome_some]
      exact fieldUpdate_hist_keep eh ph ih hc hexh hnewh hlth
    have h5 : fieldUpdate false (some d).isSome (ex5F (some d))
        pd.p5min pd.sf_p5min = .ok (some e5) := by
      simp only [ex5F, hd5, hp5, hi5, Option.isSome_some]
      exact fieldUpdate_nonhist_keep e5 p5v i5 hex5 hnew5 hlt5
    have h30 : fieldUpdate false (some d).isSome (ex30F (some d))
        pd.predispatch pd.sf_predispatch = .ok (some e30) := by
      simp only [ex30F, hd30, hp30, hi30, Option.isSome_some]
      exact fieldUpdate_nonhist_keep e30 p30v i30 hex30 hnew30 hlt30
    rw [syncKey_eq region ts now pd (some d) (some eh) (some e5) (some e30) hok h5 h30]
    obtain ⟨q1, q2, q3, q4, q5⟩ :=
      syncDecide_postFields region ts now (some d) (some eh) (some e5) (some e30)
    refine ⟨q1, q2, q3, ?_, ?_⟩
    · rw [q4]
      simp [docExport, hE, entryPrice]
    · rw [q5]
      simp [docForecast, hF, entryPrice]

/-- Witness for C2 at concrete inputs: each field with stored identifier
`202511191405` (or `202511191400` for the thirty-minute field) rejects an
older offer and accepts a newer one, and a full per-key step with all three
offers older leaves fields and derived prices untouched. -/
theorem monotonic_write_C2_witness :
    fieldUpdate false true
      (some (some ⟨40, "PUBLIC_P5MIN_202511191405_0.zip", "202511191405", "t0"⟩))
      (some 41) (some ⟨"PUBLIC_P5MIN_202511191400_0.zip", "202511191400", "t1"⟩) =
      .ok (some ⟨40, "PUBLIC_P5MIN_202511191405_0.zip", "202511191405", "t0"⟩) ∧
    fieldUpdate true true
      (some (some ⟨50, "PUBLIC_DISPATCH_202511191405_0.zip", "202511191405", "t0"⟩))
      (some 51) (some ⟨"PUBLIC_DISPATCH_202511191400_0.zip", "202511191400", "t1"⟩) =
      .ok (some ⟨50, "PUBLIC_DISPATCH_202511191405_0.zip", "202511191405", "t0"⟩) ∧
    fieldUpdate false true
      (some (some ⟨40, "PUBLIC_P5MIN_202511191405_0.zip", "202511191405", "t0"⟩))
      (some 41) (some ⟨"PUBLIC_P5MIN_202511191410_0.zip", "202511191410", "t1"⟩) =
      .ok (some ⟨41, "PUBLIC_P5MIN_202511191410_0.zip", "202511191410", "t1"⟩) ∧
    fieldUpdate true true
      (some (some ⟨50, "PUBLIC_DISPATCH_202511191405_0.zip", "202511191405", "t0"⟩))
      (some 52) (some ⟨"PUBLIC_DISPATCH_202511191410_0.zip", "202511191410", "t1"⟩) =
      .ok (some ⟨52, "PUBLIC_DISPATCH_202511191410_0.zip", "202511191410", "t1"⟩) := by
  refine ⟨monotonic_write_C2.1 _ 41 _ (by decide) (by decide) (by decide),
    monotonic_write_C2.2.1 _ 51 _ ⟨by decide, by decide, by decide⟩
      (by decide) (by decide) (by decide),
    monotonic_write_C2.2.2.1 _ 41 _ (by decide),
    monotonic_write_C2.2.2.2.1 _ 52 _ "PUBLIC_DISPATCH_202511191410_0.zip"
      (by decide) (by decide)⟩

/-- Re-offering exactly the data a fresh insert stored for a forecast-class
field computes the same entry again. -/
theorem fieldUpdate_nonhist_stable (np : Option Int) (ni : Option SourceInfo)
    (v : Option SourceEntry)
    (h1 : fieldUpdate false false none np ni = .ok v) :
    fieldUpdate false true (some v) np ni = .ok v := by
  rcases np with _ | p
  · have hrun : fieldUpdate false false none (none : Option Int) ni = .ok none := rfl
    rw [hrun] at h1
    have hv : v = none := (Except.ok.inj h1).symm
    subst hv
    rfl
  · have hrun : fieldUpdate false false none (some p) ni =
        .ok (some ⟨p, infoSf ni, infoTs ni, infoFetched ni⟩) := rfl
    rw [hrun] at h1
    have hv : v = some ⟨p, infoSf ni, infoTs ni, infoFetched ni⟩ :=
      (Except.ok.inj h1).symm
    subst hv
    simp only [fieldUpdate]
    split
    · rfl
    · rfl

/-- Same stability for `historical_price` when the gate admits the offered
filename unchanged. -/
theorem fieldUpdate_hist_stable (p : Int) (i : SourceInfo)
    (hg : histGateValue i.source_file = some i.source_file)
    (hc : cleanSource i.source_file) :
    fieldUpdate true false none (some p) (some i) =
      .ok (some { price := p, source_file := i.source_file,
                  file_timestamp := i.file_timestamp, fetched_at := i.fetched_at }) ∧
    fieldUpdate true true
      (some (some { price := p, source_file := i.source_file,
                    file_timestamp := i.file_timestamp, fetched_at := i.fetched_at }))
      (some p) (some i) =
      .ok (some { price := p, source_file := i.source_file,
                  file_timestamp := i.file_timestamp, fetched_at := i.fetched_at }) := by
  constructor
  · simp [fieldUpdate, hg]
  · simp only [fieldUpdate]
    split
    · simpa using cleanKeepHist_eq _ hc
    · simp [hg]

/-! ## Claim C6 -/

/-- C6 counterexample: the claim states the second identical sync reports
every already-present key as skipped with the document unchanged. For a key
holding only a historical price, the first run stores `Forecast_Price: null`,
so the second identical run trips the Forecast backfill check and reports the
key as updated, rewriting the document with a fresh `last_updated`. -/
theorem idempotence_C6_counterexample :
    (syncKey "VIC1" "ts1" "t2"
      { historical := some 50,
        sf_historical := some ⟨"PUBLIC_DISPATCH_202511191405_0.zip", "202511191405", "t1"⟩ }
      (postState (syncKey "VIC1" "ts1" "t1"
        { historical := some 50,
          sf_historical := some ⟨"PUBLIC_DISPATCH_202511191405_0.zip", "202511191405", "t1"⟩ }
        none) none)).isUpdated = true ∧
    postState
      (syncKey "VIC1" "ts1" "t2"
        { historical := some 50,
          sf_historical := some ⟨"PUBLIC_DISPATCH_202511191405_0.zip", "202511191405", "t1"⟩ }
        (postState (syncKey "VIC1" "ts1" "t1"
          { historical := some 50,
            sf_historical := some ⟨"PUBLIC_DISPATCH_202511191405_0.zip", "202511191405", "t1"⟩ }
          none) none))
      (postState (syncKey "VIC1" "ts1" "t1"
        { historical := some 50,
          sf_historical := some ⟨"PUBLIC_DISPATCH_202511191405_0.zip", "202511191405", "t1"⟩ }
        none) none) ≠
    postState (syncKey "VIC1" "ts1" "t1"
      { historical := some 50,
        sf_historical := some ⟨"PUBLIC_DISPATCH_202511191405_0.zip", "202511191405", "t1"⟩ }
      none) none := by
  constructor
  · decide
  · decide

/-- C6 amended: re-running the identical sync (same key, same file
identifiers, same fetch metadata) reports a key as skipped — leaving the
document untouched — precisely when the first run stored a non-null
`Forecast_Price` and a gate-accepted historical source; with a historical
offer whose clean dispatch filename the gate admits unchanged and a
five-minute forecast offer present, the second run skips. Keys whose stored
`Forecast_Price` is null are re-reported as updated on every run by the
backfill check. -/
theorem idempotent_second_sync_C6 :
    ∀ (region ts now1 now2 : String) (pd : PriceData) (ph p5v : Int)
      (ih i5 : SourceInfo),
      pd.historical = some ph → pd.sf_historical = some ih →
      pd.p5min = some p5v → pd.sf_p5min = some i5 →
      histGateValue ih.source_file = some ih.source_file →
      cleanSource ih.source_file →
      syncKey region ts now2 pd (postState (syncKey region ts now1 pd none) none) =
        .skipped := by
  intro region ts now1 now2 pd ph p5v ih i5 hph hih hp5 hi5 hg hc
  obtain ⟨hs1, hs2⟩ := fieldUpdate_hist_stable ph ih hg hc
  have hok1 : fieldUpdate true (none : Option PriceDoc).isSome (exHistF none)
      pd.historical pd.sf_historical =
      .ok (some { price := ph, source_file := ih.source_file,
                  file_timestamp := ih.file_timestamp, fetched_at := ih.fetched_at }) := by
    rw [hph, hih]
    exact hs1
  have h51 : fieldUpdate false (none : Option PriceDoc).isSome (ex5F none)
      pd.p5min pd.sf_p5min =
      .ok (some { price := p5v, source_file := i5.source_file,
                  file_timestamp := i5.file_timestamp, fetched_at := i5.fetched_at }) := by
    rw [hp5, hi5]
    simp [fieldUpdate, ex5F, infoSf, infoTs, infoFetched]
  obtain ⟨v30, h301⟩ := fieldUpdate_nonhist_ok (none : Option PriceDoc).isSome (ex30F none)
    pd.predispatch pd.sf_predispatch
  rw [syncKey_eq region ts now1 pd none _ _ _ hok1 h51 h301]
  have hdec : syncDecide region ts now1 none
      (some { price := ph, source_file := ih.source_file,
              file_timestamp := ih.file_timestamp, fetched_at := ih.fetched_at })
      (some { price := p5v, source_file := i5.source_file,
              file_timestamp := i5.file_timestamp, fetched_at := i5.fetched_at }) v30 =
      .inserted (mkNewDoc region ts now1
        (some { price := ph, source_file := ih.source_file,
                file_timestamp := ih.file_timestamp, fetched_at := ih.fetched_at })
        (some { price := p5v, source_file := i5.source_file,
                file_timestamp := i5.file_timestamp, fetched_at := i5.fetched_at }) v30) := by
    rfl
  rw [hdec]
  simp only [postState]
  have hok2 : fieldUpdate true true
      (exHistF (some (mkNewDoc region ts now1
        (some ⟨ph, ih.source_file, ih.file_timestamp, ih.fetched_at⟩)
        (some ⟨p5v, i5.source_file, i5.file_timestamp, i5.fetched_at⟩) v30)))
      pd.historical pd.sf_historical =
      .ok (some ⟨ph, ih.source_file, ih.file_timestamp, ih.fetched_at⟩) := by
    rw [hph, hih]
    simpa [mkNewDoc, exHistF] using hs2
  have h52 : fieldUpdate false true
      (ex5F (some (mkNewDoc region ts now1
        (some ⟨ph, ih.source_file, ih.file_timestamp, ih.fetched_at⟩)
        (some ⟨p5v, i5.source_file, i5.file_timestamp, i5.fetched_at⟩) v30)))
      pd.p5min pd.sf_p5min =
      .ok (some ⟨p5v, i5.source_file, i5.file_timestamp, i5.fetched_at⟩) := by
    show fieldUpdate false true
      (some (some ⟨p5v, i5.source_file, i5.file_timestamp, i5.fetched_at⟩))
      pd.p5min pd.sf_p5min = _
    apply fieldUpdate_nonhist_stable
    rw [hp5, hi5]
    simp [fieldUpdate]
  have h302 : fieldUpdate false true
      (ex30F (some (mkNewDoc region ts now1
        (some ⟨ph, ih.source_file, ih.file_timestamp, ih.fetched_at⟩)
        (some ⟨p5v, i5.source_file, i5.file_timestamp, i5.fetched_at⟩) v30)))
      pd.predispatch pd.sf_predispatch = .ok v30 := by
    show fieldUpdate false true (some v30) pd.predispatch pd.sf_predispatch = _
    exact fieldUpdate_nonhist_stable pd.predispatch pd.sf_predispatch v30 h301
  rw [syncKey_eq region ts now2 pd
    (some (mkNewDoc region ts now1
      (some ⟨ph, ih.source_file, ih.file_timestamp, ih.fetched_at⟩)
      (some ⟨p5v, i5.source_file, i5.file_timestamp, i5.fetched_at⟩) v30))
    (some ⟨ph, ih.source_file, ih.file_timestamp, ih.fetched_at⟩)
    (some ⟨p5v, i5.source_file, i5.file_timestamp, i5.fetched_at⟩) v30
    hok2 h52 h302]
  simp [syncDecide, mkNewDoc, fieldChangedB, priceChangedB, entryPrice,
    calculate_forecast_price, calculate_export_price, postState]

/-- Witness for the amended C6 at concrete inputs: a key with both a
historical and a five-minute offer is skipped by the second identical run. -/
theorem idempotent_second_sync_C6_witness :
    syncKey "VIC1" "ts1" "t2"
      { historical := some 50,
        sf_historical := some ⟨"PUBLIC_DISPATCH_202511191405_0.zip", "202511191405", "t1"⟩,
        p5min := some 40,
        sf_p5min := some ⟨"PUBLIC_P5MIN_202511191400_0.zip", "202511191400", "t1"⟩ }
      (postState (syncKey "VIC1" "ts1" "t1"
        { historical := some 50,
          sf_historical := some ⟨"PUBLIC_DISPATCH_202511191405_0.zip", "202511191405", "t1"⟩,
          p5min := some 40,
          sf_p5min := some ⟨"PUBLIC_P5MIN_202511191400_0.zip", "202511191400", "t1"⟩ }
        none) none) = .skipped :=
  idempotent_second_sync_C6 "VIC1" "ts1" "t1" "t2" _ 50 40
    ⟨"PUBLIC_DISPATCH_202511191405_0.zip", "202511191405", "t1"⟩
    ⟨"PUBLIC_P5MIN_202511191400_0.zip", "202511191400", "t1"⟩
    rfl rfl rfl rfl (by decide) ⟨by decide, by decide, by decide⟩

/-! ## Claim C7 -/

/-- C7 counterexample: the claim states that when no strictly newer file_id is
found the locator retry still returns the best (maximal) result seen. With a
baseline of `202501010000` and every attempt returning `202412310000`, every
attempt succeeds yet the function returns nothing — `best_result` is only ever
assigned on the early-exit path. -/
theorem smart_fetch_C7_counterexample :
    smart_fetch_with_retry (fun _ _ => some ("u", "202412310000"))
      (some "202501010000") 5 = none ∧
    (fun (_ : Option String) (_ : Bool) =>
      some (("u", "202412310000") : String × String)) none false ≠ none := by
  constructor
  · decide
  · decide

/-- C7 amended: the locator retry tries up to `max_attempts` client-identity /
cache-busting strategy variations, stops early returning the first attempt
whose file identifier is strictly newer than the caller-supplied baseline
(any successful attempt when the baseline is absent or empty), and when no
attempt beats the baseline it returns nothing — results seen but not strictly
newer are discarded, matching the docstring "None otherwise". -/
theorem smart_fetch_retry_C7 :
    (∀ max_attempts : Nat,
       (fetchStrategies max_attempts).length = min max_attempts USER_AGENTS.length) ∧
    (∀ (fetch : Option String → Bool → Option (String × String))
       (baseline : Option String) (pre post : List (Option String × Bool))
       (ua : Option String) (cb : Bool) (r : String × String),
       (∀ a ∈ pre, ∀ r2 : String × String,
          fetch a.1 a.2 = some r2 → beatsBaseline baseline r2.2 = false) →
       fetch ua cb = some r →
       beatsBaseline baseline r.2 = true →
       smartFetchGo fetch baseline (pre ++ (ua, cb) :: post) = some r) ∧
    (∀ (fetch : Option String → Bool → Option (String × String))
       (baseline : Option String) (attempts : List (Option String × Bool)),
       (∀ a ∈ attempts, ∀ r2 : String × String,
          fetch a.1 a.2 = some r2 → beatsBaseline baseline r2.2 = false) →
       smartFetchGo fetch baseline attempts = none) := by
  refine ⟨?_, ?_, ?_⟩
  · intro n
    simp [fetchStrategies]
  · intro fetch baseline pre post ua cb r hpre hhit hbeat
    induction pre with
    | nil =>
      simp only [List.nil_append, smartFetchGo, hhit, hbeat, if_true]
    | cons a rest ih =>
      have ha := hpre a (List.mem_cons_self a rest)
      have hrest : ∀ b ∈ rest, ∀ r2 : String × String,
          fetch b.1 b.2 = some r2 → beatsBaseline baseline r2.2 = false :=
        fun b hb => hpre b (List.mem_cons_of_mem a hb)
      rcases a with ⟨ua2, cb2⟩
      simp only [List.cons_append, smartFetchGo]
      rcases hf : fetch ua2 cb2 with _ | r2
      · exact ih hrest
      · have hb := ha r2 hf
        show (if beatsBaseline baseline r2.2 = true then some r2
              else smartFetchGo fetch baseline (rest ++ (ua, cb) :: post)) = some r
        rw [hb]
        simpa using ih hrest
  · intro fetch baseline attempts hall
    induction attempts with
    | nil => rfl
    | cons a rest ih =>
      have ha := hall a (List.mem_cons_self a rest)
      have hrest : ∀ b ∈ rest, ∀ r2 : String × String,
          fetch b.1 b.2 = some r2 → beatsBaseline baseline r2.2 = false :=
        fun b hb => hall b (List.mem_cons_of_mem a hb)
      rcases a with ⟨ua2, cb2⟩
      simp only [smartFetchGo]
      rcases hf : fetch ua2 cb2 with _ | r2
      · exact ih hrest
      · have hb := ha r2 hf
        show (if beatsBaseline baseline r2.2 = true then some r2
              else smartFetchGo fetch baseline rest) = none
        rw [hb]
        simpa using ih hrest

/-- Witness for the amended C7: with no earlier attempts and no baseline, the
first successful attempt is returned; and with a newer baseline, a run whose
attempts all return an older identifier yields nothing. -/
theorem smart_fetch_retry_C7_witness :
    smartFetchGo (fun _ _ => some ("u", "202511190000")) none
      ([] ++ (none, false) :: [(some "x", true)]) = some ("u", "202511190000") ∧
    smartFetchGo (fun _ _ => some ("u", "202412310000")) (some "202501010000")
      [(none, false), (some "x", true)] = none := by
  constructor
  · exact smart_fetch_retry_C7.2.1 (fun _ _ => some ("u", "202511190000")) none
      [] [(some "x", true)] none false ("u", "202511190000")
      (by intro a ha; simp at ha) rfl (by decide)
  · exact smart_fetch_retry_C7.2.2 (fun _ _ => some ("u", "202412310000"))
      (some "202501010000") [(none, false), (some "x", true)]
      (by
        intro a ha r2 hr2
        have : r2 = ("u", "202412310000") := by
          simpa using hr2.symm
        subst this
        decide)

/-! ## Claim C8 -/

/-- C8 counterexample: the claim states the process exits zero when the store
is reachable and only individual keys errored. With the store connected, no
fetch errors and a single errored key, `sync_price_data_to_mongodb` returns
`len(errors) == 0 = False` and `main` calls `sys.exit(1)`: the exit code is 1,
not 0 — while the tally shows the key after the error was still processed. -/
theorem exit_code_C8_counterexample :
    mainExitCode true 0 [SyncOutcome.errored, SyncOutcome.skipped] ≠ 0 ∧
    tallyRun [SyncOutcome.errored, SyncOutcome.skipped] =
      { inserted := 0, updated := 0, skipped := 1, errored := 1 } := by
  constructor
  · decide
  · decide

/-- C8 amended: the sync CLI exits zero exactly when the store was reachable
and the error list stayed empty — any error, including a per-key persistence
error, escalates to a nonzero exit. Per-key failures are still caught and
counted rather than aborting the batch: every key in the run list produces an
outcome, one outcome per key in order. -/
theorem exit_code_semantics_C8 :
    (∀ (connected : Bool) (fetchErrors : Nat) (outcomes : List SyncOutcome),
       mainExitCode connected fetchErrors outcomes = 0 ↔
       (connected = true ∧ fetchErrors = 0 ∧ (tallyRun outcomes).errored = 0)) ∧
    (∀ (region now : String) (k : String × PriceData × Option PriceDoc)
       (ks : List (String × PriceData × Option PriceDoc)),
       runKeys region now (k :: ks) =
         syncKey region k.1 now k.2.1 k.2.2 :: runKeys region now ks) ∧
    (∀ (region now : String) (ks : List (String × PriceData × Option PriceDoc)),
       (runKeys region now ks).length = ks.length) := by
  refine ⟨?_, fun region now k ks => rfl, fun region now ks => by simp [runKeys]⟩
  intro connected fetchErrors outcomes
  rcases connected with _ | _
  · simp [mainExitCode, sync_price_data_result]
  · simp only [mainExitCode, sync_price_data_result, Bool.true_and]
    constructor
    · intro h
      have hz : fetchErrors + (tallyRun outcomes).errored = 0 := by
        by_contra hne
        simp [hne] at h
      exact ⟨by trivial, by omega, by omega⟩
    · rintro ⟨-, h1, h2⟩
      simp [h1, h2]

/-! ## Parser lemmas and claims C4, C10 -/

theorem parseFold_append (ctx : ParserCtx) (expected : Int) (regions : List String)
    (s : ParseState) (l1 l2 : List (List String)) :
    parseFold ctx expected regions s (l1 ++ l2) =
      match parseFold ctx expected regions s l1 with
      | .ok s2 => parseFold ctx expected regions s2 l2
      | .error e => .error e := by
  induction l1 generalizing s with
  | nil => rfl
  | cons l rest ih =>
    simp only [List.cons_append, parseFold]
    rcases hstep : parseStep ctx expected regions s l with e | s2
    · rfl
    · exact ih s2

/-- A decoded data row whose timestamp is more than 60 seconds from the
expected settlement instant leaves the parser state untouched. -/
theorem parseStep_drops_far_row (ctx : ParserCtx) (expected : Int)
    (regions : List String) (s : ParseState) (headers : List String)
    (ri di pi : Nat) (tl : List String) (t : Int)
    (hhdr : s.hdr = some (headers, ri, di, pi))
    (hne : headers.isEmpty = false)
    (hlen : ("D" :: tl).length > 2)
    (hdreg : ("D" :: tl).getD 1 "" = "DREGION")
    (hvals : ¬ (("D" :: tl).drop 4).length ≤ max ri (max di pi))
    (hreg : trimStr ((("D" :: tl).drop 4).getD ri "") ∈ regions)
    (hdt : ctx.strptime (stripQuotes (trimStr ((("D" :: tl).drop 4).getD di ""))) = some t)
    (hfar : (t - expected).natAbs > 60) :
    parseStep ctx expected regions s ("D" :: tl) = .ok s := by
  simp only [parseStep, hhdr, hne, hlen, hdreg, hdt, hfar]
  simp [hvals, hreg, hdt, hfar]

/-- C4: when the dispatch parser is given the expected settlement instant,
every data row whose decoded timestamp differs from it by more than 60
seconds is dropped — the parse of the whole file equals the parse with that
row removed, so the row contributes nothing to the output and the remaining
rows are still processed. -/
theorem settlement_validation_C4 :
    ∀ (ctx : ParserCtx) (expected : Int) (regions : List String)
      (l1 l2 : List (List String)) (tl : List String) (s1 : ParseState)
      (headers : List String) (ri di pi : Nat) (t : Int),
      parseFold ctx expected regions {} l1 = .ok s1 →
      s1.hdr = some (headers, ri, di, pi) →
      headers.isEmpty = false →
      ("D" :: tl).length > 2 →
      ("D" :: tl).getD 1 "" = "DREGION" →
      ¬ (("D" :: tl).drop 4).length ≤ max ri (max di pi) →
      trimStr ((("D" :: tl).drop 4).getD ri "") ∈ regions →
      ctx.strptime (stripQuotes (trimStr ((("D" :: tl).drop 4).getD di ""))) = some t →
      (t - expected).natAbs > 60 →
      parse_dispatch_csv ctx expected regions (l1 ++ ("D" :: tl) :: l2) =
        parse_dispatch_csv ctx expected regions (l1 ++ l2) := by
  intro ctx expected regions l1 l2 tl s1 headers ri di pi t
    hfold hhdr hne hlen hdreg hvals hreg hdt hfar
  unfold parse_dispatch_csv
  rw [parseFold_append, parseFold_append, hfold]
  simp only [parseFold]
  rw [parseStep_drops_far_row ctx expected regions s1 headers ri di pi tl t
    hhdr hne hlen hdreg hvals hreg hdt hfar]

/-- Witness for C4: with a resolved `DREGION` header, a `VIC1` row 900
seconds away from the expected settlement instant contributes nothing. -/
theorem settlement_validation_C4_witness :
    parse_dispatch_csv
      ⟨fun s => if s = "GOOD" then some 100 else if s = "BAD" then some 1000
                else if s = "NEAR" then some 130 else none,
       fun s => if s = "55.23" then some 5523 else none⟩
      100 ["NSW1", "VIC1"]
      ([["I", "DREGION", "", "1", "REGIONID", "SETTLEMENTDATE", "RRP"]] ++
        ("D" :: ["DREGION", "", "1", "VIC1", "BAD", "55.23"]) ::
        [["D", "DREGION", "", "1", "VIC1", "GOOD", "55.23"]]) =
    parse_dispatch_csv
      ⟨fun s => if s = "GOOD" then some 100 else if s = "BAD" then some 1000
                else if s = "NEAR" then some 130 else none,
       fun s => if s = "55.23" then some 5523 else none⟩
      100 ["NSW1", "VIC1"]
      ([["I", "DREGION", "", "1", "REGIONID", "SETTLEMENTDATE", "RRP"]] ++
        [["D", "DREGION", "", "1", "VIC1", "GOOD", "55.23"]]) := by
  exact settlement_validation_C4 _ 100 ["NSW1", "VIC1"]
    [["I", "DREGION", "", "1", "REGIONID", "SETTLEMENTDATE", "RRP"]]
    [["D", "DREGION", "", "1", "VIC1", "GOOD", "55.23"]]
    ["DREGION", "", "1", "VIC1", "BAD", "55.23"]
    ⟨some (["REGIONID", "SETTLEMENTDATE", "RRP"], 0, 1, 2), []⟩
    ["REGIONID", "SETTLEMENTDATE", "RRP"] 0 1 2 1000
    rfl rfl (by decide) (by decide) (by decide) (by decide) (by decide)
    (by decide) (by decide)

theorem mem_insertKV {α : Type} (k : String) (v : α) (l : List (String × α)) :
    ∀ x ∈ insertKV k v l, x = (k, v) ∨ x ∈ l := by
  induction l with
  | nil =>
    intro x hx
    simp only [insertKV] at hx
    simp at hx
    simp [hx]
  | cons p rest ih =>
    intro x hx
    simp only [insertKV] at hx
    by_cases hp : p.1 = k
    · rw [if_pos hp] at hx
      rcases List.mem_cons.mp hx with h | h
      · exact Or.inl h
      · exact Or.inr (List.mem_cons_of_mem p h)
    · rw [if_neg hp] at hx
      rcases List.mem_cons.mp hx with h | h
      · exact Or.inr (by simp [h])
      · rcases ih x h with h2 | h2
        · exact Or.inl h2
        · exact Or.inr (List.mem_cons_of_mem p h2)

/-- Every entry a single parse step adds carries timestamp `expected`. -/
theorem parseStep_ts_inv (ctx : ParserCtx) (expected : Int) (regions : List String)
    (s s2 : ParseState) (parts : List String)
    (hstep : parseStep ctx expected regions s parts = .ok s2)
    (hinv : ∀ e ∈ s.results, e.2.1 = expected) :
    ∀ e ∈ s2.results, e.2.1 = expected := by
  rcases parts with _ | ⟨row_type, tl⟩
  · cases hstep
    exact hinv
  · simp only [parseStep] at hstep
    split at hstep
    · split at hstep
      · cases hstep
        exact hinv
      · cases hstep
    · split at hstep
      · rename_i headers ri di pi
        split at hstep
        · split at hstep
          · cases hstep
            exact hinv
          · split at hstep
            · split at hstep
              · cases hstep
                exact hinv
              · rename_i t hsome
                split at hstep
                · cases hstep
                  exact hinv
                · rename_i hnear
                  split at hstep
                  · cases hstep
                    exact hinv
                  · rename_i pr hpr
                    cases hstep
                    intro e he
                    rcases mem_insertKV _ _ _ e he with h | h
                    · subst h
                      by_cases hgt : (t - expected).natAbs > 0
                      · simp [hgt]
                      · have ht : t = expected := by omega
                        simp [hgt, ht]
                    · exact hinv e h
            · cases hstep
              exact hinv
        · cases hstep
          exact hinv
      · cases hstep
        exact hinv

theorem parseFold_ts_inv (ctx : ParserCtx) (expected : Int) (regions : List String)
    (lines : List (List String)) :
    ∀ (s s2 : ParseState),
      parseFold ctx expected regions s lines = .ok s2 →
      (∀ e ∈ s.results, e.2.1 = expected) →
      ∀ e ∈ s2.results, e.2.1 = expected := by
  induction lines with
  | nil =>
    intro s s2 h hinv
    cases h
    exact hinv
  | cons l rest ih =>
    intro s s2 h hinv
    simp only [parseFold] at h
    rcases hstep : parseStep ctx expected regions s l with e | smid
    · rw [hstep] at h
      cases h
    · rw [hstep] at h
      exact ih smid s2 h (parseStep_ts_inv ctx expected regions s smid l hstep hinv)

/-- C10: a data row whose decoded timestamp differs from the filename-derived
settlement instant by more than zero but at most 60 seconds has its timestamp
silently replaced by the expected instant in the parser state; consequently
every point the dispatch parser emits carries exactly the file-identifier
settlement time, never the timestamp printed in the CSV row. -/
theorem timestamp_substitution_C10 :
    (∀ (ctx : ParserCtx) (expected : Int) (regions : List String) (s : ParseState)
       (headers : List String) (ri di pi : Nat) (tl : List String) (t : Int) (pr : Int),
       s.hdr = some (headers, ri, di, pi) →
       headers.isEmpty = false →
       ("D" :: tl).length > 2 →
       ("D" :: tl).getD 1 "" = "DREGION" →
       ¬ (("D" :: tl).drop 4).length ≤ max ri (max di pi) →
       trimStr ((("D" :: tl).drop 4).getD ri "") ∈ regions →
       ctx.strptime (stripQuotes (trimStr ((("D" :: tl).drop 4).getD di ""))) = some t →
       0 < (t - expected).natAbs →
       (t - expected).natAbs ≤ 60 →
       ctx.parsePrice (trimStr ((("D" :: tl).drop 4).getD pi "")) = some pr →
       t ≠ expected ∧
       parseStep ctx expected regions s ("D" :: tl) =
         .ok { s with
               results := insertKV (trimStr ((("D" :: tl).drop 4).getD ri ""))
                            (expected, pr) s.results }) ∧
    (∀ (ctx : ParserCtx) (expected : Int) (regions : List String)
       (lines : List (List String)) (r : String) (tsv pv : Int),
       (r, (tsv, pv)) ∈ parse_dispatch_csv ctx expected regions lines →
       tsv = expected) := by
  constructor
  · intro ctx expected regions s headers ri di pi tl t pr
      hhdr hne hlen hdreg hvals hreg hdt hpos hnear hpr
    constructor
    · intro hcontra
      subst hcontra
      simp at hpos
    · have hfar : ¬ (t - expected).natAbs > 60 := by omega
      have hM := Nat.lt_of_not_le hvals
      have h1 : ri ≤ max ri (max di pi) := Nat.le_max_left _ _
      have h2 : di ≤ max ri (max di pi) :=
        le_trans (Nat.le_max_left di pi) (Nat.le_max_right ri (max di pi))
      have h3 : pi ≤ max ri (max di pi) :=
        le_trans (Nat.le_max_right di pi) (Nat.le_max_right ri (max di pi))
      have hlen3 : (("D" :: tl).drop 4).length = tl.length - 3 := by simp
      have hvalsN : ¬ (tl.length ≤ ri + 3 ∨ tl.length ≤ di + 3 ∨ tl.length ≤ pi + 3) := by
        omega
      have hregN : trimStr (tl[3 + ri]?.getD "") ∈ regions := by simpa using hreg
      have hdtN : ctx.strptime (stripQuotes (trimStr (tl[3 + di]?.getD ""))) = some t := by
        simpa using hdt
      have hprN : ctx.parsePrice (trimStr (tl[3 + pi]?.getD "")) = some pr := by
        simpa using hpr
      simp only [parseStep, hhdr, hne, hlen, hdreg]
      simp [hvalsN, hregN, hdtN, hprN, hfar, hpos]
  · intro ctx expected regions lines r tsv pv hmem
    unfold parse_dispatch_csv at hmem
    rcases hfold : parseFold ctx expected regions {} lines with e | s2
    · rw [hfold] at hmem
      simp at hmem
    · rw [hfold] at hmem
      exact parseFold_ts_inv ctx expected regions lines {} s2 hfold
        (by intro e he; simp at he) (r, (tsv, pv)) hmem

/-- Witness for C10: a `VIC1` row 30 seconds from the expected instant is
emitted with the expected instant as its timestamp, and a concrete emitted
point's timestamp is certified equal to the expected instant. -/
theorem timestamp_substitution_C10_witness :
    ((130 : Int) ≠ 100 ∧
     parseStep
       ⟨fun s => if s = "GOOD" then some 100 else if s = "BAD" then some 1000
                 else if s = "NEAR" then some 130 else none,
        fun s => if s = "55.23" then some 5523 else none⟩
       100 ["NSW1", "VIC1"]
       ⟨some (["REGIONID", "SETTLEMENTDATE", "RRP"], 0, 1, 2), []⟩
       ("D" :: ["DREGION", "", "1", "VIC1", "NEAR", "55.23"]) =
       .ok ⟨some (["REGIONID", "SETTLEMENTDATE", "RRP"], 0, 1, 2),
            insertKV
              (trimStr ((("D" :: ["DREGION", "", "1", "VIC1", "NEAR", "55.23"]).drop 4).getD 0 ""))
              ((100 : Int), (5523 : Int)) []⟩) ∧
    (100 : Int) = 100 :=
  ⟨timestamp_substitution_C10.1
      ⟨fun s => if s = "GOOD" then some 100 else if s = "BAD" then some 1000
                else if s = "NEAR" then some 130 else none,
       fun s => if s = "55.23" then some 5523 else none⟩
      100 ["NSW1", "VIC1"]
      ⟨some (["REGIONID", "SETTLEMENTDATE", "RRP"], 0, 1, 2), []⟩
      ["REGIONID", "SETTLEMENTDATE", "RRP"] 0 1 2
      ["DREGION", "", "1", "VIC1", "NEAR", "55.23"] 130 5523
      rfl (by decide) (by decide) (by decide) (by decide) (by decide)
      (by decide) (by decide) (by decide) (by decide),
   timestamp_substitution_C10.2
      ⟨fun s => if s = "GOOD" then some 100 else if s = "BAD" then some 1000
                else if s = "NEAR" then some 130 else none,
       fun s => if s = "55.23" then some 5523 else none⟩
      100 ["NSW1", "VIC1"]
      [["I", "DREGION", "", "1", "REGIONID", "SETTLEMENTDATE", "RRP"],
       ["D", "DREGION", "", "1", "VIC1", "NEAR", "55.23"]]
      "VIC1" 100 5523 (by decide)⟩

/-! ## Order lemmas for file identifiers -/

theorem lexLt_irrefl : ∀ a : List Char, lexLt a a = false := by
  intro a
  induction a with
  | nil => rfl
  | cons x xs ih => simp [lexLt, lt_irrefl, ih]

theorem strLtB_irrefl (a : String) : strLtB a a = false :=
  lexLt_irrefl a.toList

/-- Chained comparison: `a < b ≤ c` implies `a < c` for the lexicographic Bool order. -/
theorem lexLt_lt_of_lt_of_nlt :
    ∀ a b c : List Char, lexLt a b = true → lexLt c b = false → lexLt a c = true := by
  intro a
  induction a with
  | nil =>
    intro b c h1 h2
    cases b with
    | nil => simp [lexLt] at h1
    | cons y ys =>
      cases c with
      | nil => simp [lexLt] at h2
      | cons z zs => rfl
  | cons x xs ih =>
    intro b c h1 h2
    cases b with
    | nil => simp [lexLt] at h1
    | cons y ys =>
      cases c with
      | nil => simp [lexLt] at h2
      | cons z zs =>
        simp only [lexLt] at h1 h2 ⊢
        by_cases hxy : x < y
        · by_cases hyz : y < z
          · simp [lt_trans hxy hyz]
          · by_cases hzy : z < y
            · simp [hzy] at h2
            · have hyz2 : y = z := le_antisymm (not_lt.mp hzy) (not_lt.mp hyz)
              subst hyz2
              simp [hxy]
        · by_cases hyx : y < x
          · simp [hxy, hyx] at h1
          · have hxy2 : x = y := le_antisymm (not_lt.mp hyx) (not_lt.mp hxy)
            subst hxy2
            simp only [lt_irrefl, if_false] at h1
            by_cases hxz : x < z
            · simp [hxz]
            · by_cases hzx : z < x
              · simp [hzx] at h2
              · have hxz2 : x = z := le_antisymm (not_lt.mp hzx) (not_lt.mp hxz)
                subst hxz2
                simp only [lt_irrefl, if_false] at h2 ⊢
                exact ih ys zs h1 h2

theorem strLtB_lt_of_lt_of_nlt {a b c : String}
    (h1 : strLtB a b = true) (h2 : strLtB c b = false) : strLtB a c = true :=
  lexLt_lt_of_lt_of_nlt a.toList b.toList c.toList h1 h2

/-- Combining `¬(m < h)` and `¬(h < T)` gives `¬(m < T)`. -/
theorem strLtB_nlt_trans {m h T : String}
    (h1 : strLtB m h = false) (h2 : strLtB h T = false) : strLtB m T = false := by
  rcases hb : strLtB m T with _ | _
  · rfl
  · rw [strLtB_lt_of_lt_of_nlt hb h2] at h1
    cases h1

/-! ## `maxKey`, `sortDesc` and `insertKV` lemmas -/

theorem maxKey_isSome : ∀ (l : List String), l ≠ [] → ∃ m, maxKey l = some m := by
  intro l hl
  cases l with
  | nil => exact absurd rfl hl
  | cons k rest =>
    simp only [maxKey]
    rcases maxKey rest with _ | m
    · exact ⟨k, rfl⟩
    · exact ⟨if strLeB k m then m else k, rfl⟩

theorem maxKey_mem : ∀ (l : List String) (m : String), maxKey l = some m → m ∈ l := by
  intro l
  induction l with
  | nil => intro m h; cases h
  | cons k rest ih =>
    intro m h
    rcases hr : maxKey rest with _ | m0
    · simp only [maxKey, hr] at h
      cases h
      exact List.mem_cons_self k rest
    · rcases hc : strLeB k m0 with _ | _
      · simp only [maxKey, hr, hc] at h
        simp at h
        subst h
        simp
      · simp only [maxKey, hr, hc] at h
        simp at h
        subst h
        exact List.mem_cons_of_mem k (ih m0 hr)

theorem maxKey_not_lt :
    ∀ (l : List String) (m : String), maxKey l = some m →
      ∀ x ∈ l, strLtB m x = false := by
  intro l
  induction l with
  | nil => intro m h; cases h
  | cons k rest ih =>
    intro m h x hx
    rcases hr : maxKey rest with _ | m0
    · simp only [maxKey, hr] at h
      cases h
      rcases List.mem_cons.mp hx with hk | hk
      · subst hk
        exact strLtB_irrefl x
      · cases rest with
        | nil => simp at hk
        | cons a b =>
          obtain ⟨m2, hm2⟩ := maxKey_isSome (a :: b) (by simp)
          rw [hm2] at hr
          cases hr
    · rcases hc : strLeB k m0 with _ | _
      · -- strLeB k m0 = false: m0 < k, result is k
        simp only [maxKey, hr, hc] at h
        simp at h
        subst h
        have hm0k : strLtB m0 k = true := by
          simpa [strLeB] using hc
        rcases List.mem_cons.mp hx with hk | hk
        · subst hk
          exact strLtB_irrefl x
        · have hnx := ih m0 hr x hk
          rcases hb : strLtB k x with _ | _
          · rfl
          · have hkm02 : strLtB k m0 = true := strLtB_lt_of_lt_of_nlt hb hnx
            rw [strLtB_asymm hm0k] at hkm02
            simp at hkm02
      · -- strLeB k m0 = true: result is m0
        simp only [maxKey, hr, hc] at h
        simp at h
        subst h
        have hkm0 : strLtB m0 k = false := by
          simpa [strLeB] using hc
        rcases List.mem_cons.mp hx with hk | hk
        · subst hk
          exact hkm0
        · exact ih m0 hr x hk

theorem mem_keys_insertKV {α : Type} (k : String) (v : α) :
    ∀ (l : List (String × α)) (x : String),
      x ∈ l.map Prod.fst → x ∈ (insertKV k v l).map Prod.fst := by
  intro l
  induction l with
  | nil => intro x hx; simp at hx
  | cons p rest ih =>
    intro x hx
    simp only [List.map_cons, List.mem_cons] at hx
    by_cases hp : p.1 = k
    · rw [show insertKV k v (p :: rest) = (k, v) :: rest from by simp [insertKV, hp]]
      simp only [List.map_cons, List.mem_cons]
      rcases hx with h | h
      · exact Or.inl (by rw [h, hp])
      · exact Or.inr h
    · rw [show insertKV k v (p :: rest) = p :: insertKV k v rest from by
        simp [insertKV, hp]]
      simp only [List.map_cons, List.mem_cons]
      rcases hx with h | h
      · exact Or.inl h
      · exact Or.inr (ih x h)

theorem key_mem_keys_insertKV {α : Type} (k : String) (v : α) :
    ∀ (l : List (String × α)), k ∈ (insertKV k v l).map Prod.fst := by
  intro l
  induction l with
  | nil => simp [insertKV]
  | cons p rest ih =>
    by_cases hp : p.1 = k
    · rw [show insertKV k v (p :: rest) = (k, v) :: rest from by simp [insertKV, hp]]
      simp
    · rw [show insertKV k v (p :: rest) = p :: insertKV k v rest from by
        simp [insertKV, hp]]
      simp only [List.map_cons, List.mem_cons]
      exact Or.inr ih

theorem lookup_isSome_of_mem_keys {α : Type} :
    ∀ (l : List (String × α)) (k : String),
      k ∈ l.map Prod.fst → ∃ v, lookupKV k l = some v := by
  intro l
  induction l with
  | nil => intro k hk; simp at hk
  | cons p rest ih =>
    intro k hk
    simp only [List.map_cons, List.mem_cons] at hk
    simp only [lookupKV]
    by_cases hp : p.1 = k
    · rw [if_pos hp]
      exact ⟨p.2, rfl⟩
    · rw [if_neg hp]
      rcases hk with h | h
      · exact absurd h.symm hp
      · exact ih k h

theorem mem_insertDesc : ∀ (s : List String) (x y : String),
    y ∈ insertDesc x s ↔ y = x ∨ y ∈ s := by
  intro s
  induction s with
  | nil => intro x y; simp [insertDesc]
  | cons a rest ih =>
    intro x y
    simp only [insertDesc]
    rcases hc : strLeB a x with _ | _
    · rw [if_neg (by simp [hc])]
      simp only [List.mem_cons, ih x y]
      tauto
    · rw [if_pos (by simp [hc])]
      simp [List.mem_cons]

theorem mem_sortDesc : ∀ (l : List String) (y : String), y ∈ sortDesc l ↔ y ∈ l := by
  intro l
  induction l with
  | nil => intro y; simp [sortDesc]
  | cons a rest ih =>
    intro y
    simp only [sortDesc, List.foldr]
    rw [mem_insertDesc]
    rw [List.mem_cons]
    constructor
    · rintro (h | h)
      · exact Or.inl h
      · exact Or.inr ((ih y).mp h)
    · rintro (h | h)
      · exact Or.inl h
      · exact Or.inr ((ih y).mpr h)

/-- The head of the descending sort is a maximal element. -/
theorem sortDesc_head :
    ∀ (l : List String), l ≠ [] →
      ∃ h0 t0, sortDesc l = h0 :: t0 ∧ ∀ x ∈ l, strLtB h0 x = false := by
  intro l
  induction l with
  | nil => intro h; exact absurd rfl h
  | cons a rest ih =>
    intro _
    rcases hrest : rest with _ | ⟨b, brest⟩
    · exact ⟨a, [], rfl, by
        intro x hx
        simp at hx
        subst hx
        exact strLtB_irrefl x⟩
    · rw [← hrest]
      obtain ⟨h0, t0, hs, hmax⟩ := ih (by simp [hrest])
      have : sortDesc (a :: rest) = insertDesc a (sortDesc rest) := rfl
      rw [this, hs]
      simp only [insertDesc]
      rcases hc : strLeB h0 a with _ | _
      · have hah0 : strLtB a h0 = true := by simpa [strLeB] using hc
        rw [if_neg (by simp [hc])]
        refine ⟨h0, insertDesc a t0, rfl, ?_⟩
        intro x hx
        rcases List.mem_cons.mp hx with h | h
        · subst h
          exact strLtB_asymm hah0
        · exact hmax x h
      · have hah0 : strLtB a h0 = false := by simpa [strLeB] using hc
        rw [if_pos (by simp [hc])]
        refine ⟨a, h0 :: t0, rfl, ?_⟩
        intro x hx
        rcases List.mem_cons.mp hx with h | h
        · subst h
          exact strLtB_irrefl x
        · rcases hb : strLtB a x with _ | _
          · rfl
          · rw [strLtB_lt_of_lt_of_nlt hb (hmax x h)] at hah0
            cases hah0

/-- The dict comprehension `{k: cache[k] for k in kept_keys}` has exactly the
kept keys when each of them is present. -/
theorem filterMap_lookup_keys {α : Type} (inserted : List (String × α)) :
    ∀ keep : List String,
      (∀ k ∈ keep, k ∈ inserted.map Prod.fst) →
      (keep.filterMap (fun k => (lookupKV k inserted).map (fun v => (k, v)))).map
        Prod.fst = keep := by
  intro keep
  induction keep with
  | nil => intro _; rfl
  | cons k ks ih =>
    intro h
    obtain ⟨v, hv⟩ := lookup_isSome_of_mem_keys inserted k (h k (List.mem_cons_self k ks))
    simp [List.filterMap_cons, hv, ih (fun x hx => h x (List.mem_cons_of_mem k hx))]

theorem maxEntriesFor_pos (data_type : String) : 0 < maxEntriesFor data_type := by
  unfold maxEntriesFor
  split <;> omega

/-! ## Claim C9 -/

/-- C9: the report cache's per-class invariants. The retention bounds are 24
for the dispatch class and 10 for the forecast classes; a save whose key is
strictly older than the newest cached key leaves the cache unchanged; the
per-class maximal key never decreases across a save; after a save the class
either was left unchanged or holds at most its bound; and when an accepted
save overflows the bound, the surviving keys are exactly the most recent
`max_entries` keys in descending order — the oldest are evicted. -/
theorem cache_monotonic_bounded_C9 :
    (maxEntriesFor "dispatch" = 24 ∧ maxEntriesFor "p5min" = 10 ∧
     maxEntriesFor "predispatch" = 10) ∧
    (∀ (α : Type) (data_type key : String) (d : α) (cache : List (String × α))
       (T : String),
       maxKey (cache.map Prod.fst) = some T → strLtB key T = true →
       save_to_cache data_type key d cache = cache) ∧
    (∀ (α : Type) (data_type key : String) (d : α) (cache : List (String × α))
       (T : String),
       maxKey (cache.map Prod.fst) = some T →
       ∃ T2, maxKey ((save_to_cache data_type key d cache).map Prod.fst) = some T2 ∧
             strLtB T2 T = false) ∧
    (∀ (α : Type) (data_type key : String) (d : α) (cache : List (String × α)),
       save_to_cache data_type key d cache = cache ∨
       (save_to_cache data_type key d cache).length ≤ maxEntriesFor data_type) ∧
    (∀ (α : Type) (data_type key : String) (d : α) (cache : List (String × α)),
       (∀ T, maxKey (cache.map Prod.fst) = some T → strLtB key T = false) →
       (insertKV key d cache).length > maxEntriesFor data_type →
       (save_to_cache data_type key d cache).map Prod.fst =
         (sortDesc ((insertKV key d cache).map Prod.fst)).take
           (maxEntriesFor data_type)) := by
  refine ⟨⟨rfl, rfl, rfl⟩, ?_, ?_, ?_, ?_⟩
  · -- rejection
    intro α data_type key d cache T hmax hlt
    simp [save_to_cache, hmax, hlt]
  · -- the maximal key never decreases
    intro α data_type key d cache T hmax
    rcases hlt : strLtB key T with _ | _
    · -- accepted
      have hTmem : T ∈ cache.map Prod.fst := maxKey_mem _ T hmax
      have hTins : T ∈ (insertKV key d cache).map Prod.fst :=
        mem_keys_insertKV key d cache T hTmem
      have hsave : save_to_cache data_type key d cache =
          (if (insertKV key d cache).length > maxEntriesFor data_type then
            ((sortDesc ((insertKV key d cache).map Prod.fst)).take
              (maxEntriesFor data_type)).filterMap
              (fun k => (lookupKV k (insertKV key d cache)).map (fun v => (k, v)))
          else insertKV key d cache) := by
        simp [save_to_cache, hmax, hlt]
      rcases hsize : ((insertKV key d cache).length > maxEntriesFor data_type : Bool)
        with _ | _
      · simp at hsize
        rw [hsave, if_neg (by omega)]
        obtain ⟨T2, hT2⟩ := maxKey_isSome ((insertKV key d cache).map Prod.fst)
          (List.ne_nil_of_mem hTins)
        exact ⟨T2, hT2, maxKey_not_lt _ T2 hT2 T hTins⟩
      · simp at hsize
        rw [hsave, if_pos hsize]
        obtain ⟨h0, t0, hsd, hmax0⟩ := sortDesc_head ((insertKV key d cache).map Prod.fst)
          (List.ne_nil_of_mem hTins)
        have hkeymem : ∀ k ∈ (sortDesc ((insertKV key d cache).map Prod.fst)).take
            (maxEntriesFor data_type), k ∈ (insertKV key d cache).map Prod.fst := by
          intro k hk
          exact (mem_sortDesc _ k).mp (List.mem_of_mem_take hk)
        rw [show ((sortDesc ((insertKV key d cache).map Prod.fst)).take
            (maxEntriesFor data_type)).filterMap
            (fun k => (lookupKV k (insertKV key d cache)).map (fun v => (k, v))) =
            ((sortDesc ((insertKV key d cache).map Prod.fst)).take
              (maxEntriesFor data_type)).filterMap
              (fun k => (lookupKV k (insertKV key d cache)).map (fun v => (k, v)))
          from rfl]
        have hkeys := filterMap_lookup_keys (insertKV key d cache)
          ((sortDesc ((insertKV key d cache).map Prod.fst)).take
            (maxEntriesFor data_type)) hkeymem
        have hh0keep : h0 ∈ (sortDesc ((insertKV key d cache).map Prod.fst)).take
            (maxEntriesFor data_type) := by
          rw [hsd]
          rcases hme : maxEntriesFor data_type with _ | n
          · exact absurd hme (by have := maxEntriesFor_pos data_type; omega)
          · simp [List.take_succ_cons]
        have hne : ((((sortDesc ((insertKV key d cache).map Prod.fst)).take
            (maxEntriesFor data_type)).filterMap
            (fun k => (lookupKV k (insertKV key d cache)).map (fun v => (k, v)))).map
            Prod.fst) ≠ [] := by
          rw [hkeys]
          exact List.ne_nil_of_mem hh0keep
        obtain ⟨T2, hT2⟩ := maxKey_isSome _ hne
        refine ⟨T2, hT2, ?_⟩
        have hT2h0 : strLtB T2 h0 = false := by
          apply maxKey_not_lt _ T2 hT2
          rw [hkeys]
          exact hh0keep
        exact strLtB_nlt_trans hT2h0 (hmax0 T hTins)
    · -- rejected: the maximum is unchanged
      refine ⟨T, ?_, strLtB_irrefl T⟩
      rw [show save_to_cache data_type key d cache = cache from by
        simp [save_to_cache, hmax, hlt]]
      exact hmax
  · -- bounded retention
    intro α data_type key d cache
    rcases hproc : (match maxKey (cache.map Prod.fst) with
      | some latest => !(strLtB key latest)
      | none => true) with _ | _
    · exact Or.inl (by simp [save_to_cache, hproc])
    · rcases hsize : ((insertKV key d cache).length > maxEntriesFor data_type : Bool)
        with _ | _
      · simp at hsize
        refine Or.inr ?_
        rw [show save_to_cache data_type key d cache = insertKV key d cache from by
          simp only [save_to_cache, hproc, if_true]
          rw [if_neg (by omega)]]
        omega
      · simp at hsize
        refine Or.inr ?_
        rw [show save_to_cache data_type key d cache =
            ((sortDesc ((insertKV key d cache).map Prod.fst)).take
              (maxEntriesFor data_type)).filterMap
              (fun k => (lookupKV k (insertKV key d cache)).map (fun v => (k, v)))
          from by
          simp only [save_to_cache, hproc, if_true]
          rw [if_pos hsize]]
        calc (((sortDesc ((insertKV key d cache).map Prod.fst)).take
              (maxEntriesFor data_type)).filterMap
              (fun k => (lookupKV k (insertKV key d cache)).map (fun v => (k, v)))).length
            ≤ ((sortDesc ((insertKV key d cache).map Prod.fst)).take
                (maxEntriesFor data_type)).length := List.length_filterMap_le _ _
          _ ≤ maxEntriesFor data_type := List.length_take_le _ _
  · -- eviction keeps exactly the most recent keys
    intro α data_type key d cache hproc hsize
    have hp : (match maxKey (cache.map Prod.fst) with
        | some latest => !(strLtB key latest)
        | none => true) = true := by
      rcases hmax : maxKey (cache.map Prod.fst) with _ | T
      · rfl
      · simp [hproc T hmax]
    rw [show save_to_cache data_type key d cache =
        ((sortDesc ((insertKV key d cache).map Prod.fst)).take
          (maxEntriesFor data_type)).filterMap
          (fun k => (lookupKV k (insertKV key d cache)).map (fun v => (k, v)))
      from by
      simp only [save_to_cache, hp, if_true]
      rw [if_pos hsize]]
    apply filterMap_lookup_keys
    intro k hk
    exact (mem_sortDesc _ k).mp (List.mem_of_mem_take hk)

/-- Witness for C9 at concrete caches: a stale write is rejected, the maximum
survives a save, the bound holds after a save, and an overflowing forecast
save keeps the ten most recent keys. -/
theorem cache_monotonic_bounded_C9_witness :
    save_to_cache "p5min" "202511191300" (0 : Int)
      [("202511191405", (1 : Int)), ("202511191400", 2)] =
      [("202511191405", 1), ("202511191400", 2)] ∧
    (∃ T2, maxKey ((save_to_cache "p5min" "202511191410" (0 : Int)
        [("202511191405", (1 : Int))]).map Prod.fst) = some T2 ∧
        strLtB T2 "202511191405" = false) ∧
    (save_to_cache "p5min" "202511191410" (0 : Int) [("202511191405", (1 : Int))] =
        [("202511191405", 1)] ∨
     (save_to_cache "p5min" "202511191410" (0 : Int)
        [("202511191405", (1 : Int))]).length ≤ maxEntriesFor "p5min") ∧
    (save_to_cache "p5min" "202511191455" (0 : Int)
      [("202511191450", (1 : Int)), ("202511191445", 2), ("202511191440", 3),
       ("202511191435", 4), ("202511191430", 5), ("202511191425", 6),
       ("202511191420", 7), ("202511191415", 8), ("202511191410", 9),
       ("202511191405", 10)]).map Prod.fst =
    (sortDesc ((insertKV "202511191455" (0 : Int)
      [("202511191450", (1 : Int)), ("202511191445", 2), ("202511191440", 3),
       ("202511191435", 4), ("202511191430", 5), ("202511191425", 6),
       ("202511191420", 7), ("202511191415", 8), ("202511191410", 9),
       ("202511191405", 10)]).map Prod.fst)).take (maxEntriesFor "p5min") :=
  ⟨cache_monotonic_bounded_C9.2.1 Int "p5min" "202511191300" 0
      [("202511191405", 1), ("202511191400", 2)] "202511191405"
      (by decide) (by decide),
   cache_monotonic_bounded_C9.2.2.1 Int "p5min" "202511191410" 0
      [("202511191405", 1)] "202511191405" (by decide),
   cache_monotonic_bounded_C9.2.2.2.1 Int "p5min" "202511191410" 0
      [("202511191405", 1)],
   cache_monotonic_bounded_C9.2.2.2.2 Int "p5min" "202511191455" 0
      [("202511191450", 1), ("202511191445", 2), ("202511191440", 3),
       ("202511191435", 4), ("202511191430", 5), ("202511191425", 6),
       ("202511191420", 7), ("202511191415", 8), ("202511191410", 9),
       ("202511191405", 10)]
      (by
        intro T hT
        have h2 : maxKey
            (List.map Prod.fst
              [("202511191450", (1 : Int)), ("202511191445", 2), ("202511191440", 3),
               ("202511191435", 4), ("202511191430", 5), ("202511191425", 6),
               ("202511191420", 7), ("202511191415", 8), ("202511191410", 9),
               ("202511191405", 10)]) = some "202511191450" := by decide
        rw [h2] at hT
        rw [← Option.some.inj hT]
        decide) (by decide)⟩

/-! ## Claim C3 -/

/-- C3: the retention pass (modelled from the spec, see `retentionPass`)
preserves the record set, and for every record whose settlement timestamp is
older than the 2-hour forecast-retention horizon before now it unsets both
forecast fields, recomputes `best_forecast` — null, since no forecast source
remains — and leaves `historical_price` untouched; records within the horizon
are untouched entirely. -/
theorem retention_pass_C3 :
    FORECAST_RETENTION_SECONDS = 7200 ∧
    calculate_forecast_price none none = none ∧
    ∀ (tsOf : PriceDoc → Int) (now : Int) (docs : List PriceDoc),
      (retentionPass tsOf now docs).length = docs.length ∧
      ∀ (i : Nat) (h1 : i < docs.length)
        (h2 : i < (retentionPass tsOf now docs).length),
        (tsOf (docs.get ⟨i, h1⟩) < now - FORECAST_RETENTION_SECONDS →
          ((retentionPass tsOf now docs).get ⟨i, h2⟩).dispatch_5min = none ∧
          ((retentionPass tsOf now docs).get ⟨i, h2⟩).dispatch_30min = none ∧
          ((retentionPass tsOf now docs).get ⟨i, h2⟩).Forecast_Price =
            some (calculate_forecast_price none none) ∧
          ((retentionPass tsOf now docs).get ⟨i, h2⟩).historical_price =
            (docs.get ⟨i, h1⟩).historical_price) ∧
        (¬ tsOf (docs.get ⟨i, h1⟩) < now - FORECAST_RETENTION_SECONDS →
          (retentionPass tsOf now docs).get ⟨i, h2⟩ = docs.get ⟨i, h1⟩) := by
  refine ⟨rfl, rfl, ?_⟩
  intro tsOf now docs
  refine ⟨by simp [retentionPass], ?_⟩
  intro i h1 h2
  have hget : (retentionPass tsOf now docs).get ⟨i, h2⟩ =
      (fun d => if tsOf d < now - FORECAST_RETENTION_SECONDS then
        { d with dispatch_5min := none, dispatch_30min := none,
                 Forecast_Price := some (calculate_forecast_price none none) }
      else d) (docs.get ⟨i, h1⟩) := by
    simp [retentionPass]
  constructor
  · intro hold
    rw [hget]
    simp only [List.get_eq_getElem] at hold
    simp [hold]
  · intro hnew
    rw [hget]
    simp only [List.get_eq_getElem] at hnew
    simp [hnew]

/-- Witness for C3: a record two-plus hours old loses both forecast fields
and its `best_forecast` becomes null while its historical price survives; a
recent record is untouched. -/
theorem retention_pass_C3_witness :
    ((retentionPass (fun d => if d.region = "OLD" then 0 else 9000) 10000
      [{ region := "OLD", timestamp := "t-old",
         historical_price := some (some ⟨50, "PUBLIC_DISPATCH_202511191405_0.zip",
           "202511191405", "t0"⟩),
         dispatch_5min := some (some ⟨40, "f5", "202511191400", "t0"⟩),
         dispatch_30min := some (some ⟨30, "f30", "202511191330", "t0"⟩),
         Export_Price := some (some 50), Forecast_Price := some (some 40),
         last_updated := "t0" },
       { region := "NEW", timestamp := "t-new",
         dispatch_5min := some (some ⟨41, "f5", "202511191400", "t0"⟩),
         Forecast_Price := some (some 41), last_updated := "t0" }]).get
      ⟨0, by decide⟩).dispatch_5min = none ∧
    ((retentionPass (fun d => if d.region = "OLD" then 0 else 9000) 10000
      [{ region := "OLD", timestamp := "t-old",
         historical_price := some (some ⟨50, "PUBLIC_DISPATCH_202511191405_0.zip",
           "202511191405", "t0"⟩),
         dispatch_5min := some (some ⟨40, "f5", "202511191400", "t0"⟩),
         dispatch_30min := some (some ⟨30, "f30", "202511191330", "t0"⟩),
         Export_Price := some (some 50), Forecast_Price := some (some 40),
         last_updated := "t0" },
       { region := "NEW", timestamp := "t-new",
         dispatch_5min := some (some ⟨41, "f5", "202511191400", "t0"⟩),
         Forecast_Price := some (some 41), last_updated := "t0" }]).get
      ⟨0, by decide⟩).historical_price =
      some (some ⟨50, "PUBLIC_DISPATCH_202511191405_0.zip", "202511191405", "t0"⟩) ∧
    ((retentionPass (fun d => if d.region = "OLD" then 0 else 9000) 10000
      [{ region := "OLD", timestamp := "t-old",
         historical_price := some (some ⟨50, "PUBLIC_DISPATCH_202511191405_0.zip",
           "202511191405", "t0"⟩),
         dispatch_5min := some (some ⟨40, "f5", "202511191400", "t0"⟩),
         dispatch_30min := some (some ⟨30, "f30", "202511191330", "t0"⟩),
         Export_Price := some (some 50), Forecast_Price := some (some 40),
         last_updated := "t0" },
       { region := "NEW", timestamp := "t-new",
         dispatch_5min := some (some ⟨41, "f5", "202511191400", "t0"⟩),
         Forecast_Price := some (some 41), last_updated := "t0" }]).get
      ⟨1, by decide⟩) =
      { region := "NEW", timestamp := "t-new",
        dispatch_5min := some (some ⟨41, "f5", "202511191400", "t0"⟩),
        Forecast_Price := some (some 41), last_updated := "t0" } := by
  have hmain := (retention_pass_C3.2.2 (fun d => if d.region = "OLD" then 0 else 9000)
    10000
    [{ region := "OLD", timestamp := "t-old",
       historical_price := some (some ⟨50, "PUBLIC_DISPATCH_202511191405_0.zip",
         "202511191405", "t0"⟩),
       dispatch_5min := some (some ⟨40, "f5", "202511191400", "t0"⟩),
       dispatch_30min := some (some ⟨30, "f30", "202511191330", "t0"⟩),
       Export_Price := some (some 50), Forecast_Price := some (some 40),
       last_updated := "t0" },
     { region := "NEW", timestamp := "t-new",
       dispatch_5min := some (some ⟨41, "f5", "202511191400", "t0"⟩),
       Forecast_Price := some (some 41), last_updated := "t0" }]).2
  obtain ⟨c1, c2, c3, c4⟩ := (hmain 0 (by decide) (by simp [retentionPass])).1 (by decide)
  have hnew := (hmain 1 (by decide) (by simp [retentionPass])).2 (by decide)
  exact ⟨c1, c4, hnew⟩

/-- Witness for the amended C1 at concrete inputs: a predispatch-named file is
rejected by the store operation, and a sync offer from the same file leaves an
existing clean dispatch-sourced `historical_price` exactly as it was. -/
theorem provenance_gate_C1_witness :
    store_to_mongodb none "VIC1" "ts1" 42 "PUBLIC_PREDISPATCH_202511191430_0.zip" "t0" =
      none ∧
    docHist (postState (syncKey "VIC1" "ts1" "t1"
      { historical := some 42,
        sf_historical := some ⟨"PUBLIC_PREDISPATCH_202511191430_0.zip", "202511191430", "t1"⟩ }
      (some { region := "VIC1", timestamp := "ts1",
              historical_price := some (some ⟨50, "PUBLIC_DISPATCH_202511191405_0.zip",
                "202511191405", "t0"⟩),
              Export_Price := some (some 50), Forecast_Price := some none,
              last_updated := "t0" }))
      (some { region := "VIC1", timestamp := "ts1",
              historical_price := some (some ⟨50, "PUBLIC_DISPATCH_202511191405_0.zip",
                "202511191405", "t0"⟩),
              Export_Price := some (some 50), Forecast_Price := some none,
              last_updated := "t0" })) =
    some ⟨50, "PUBLIC_DISPATCH_202511191405_0.zip", "202511191405", "t0"⟩ := by
  constructor
  · exact provenance_gate_amended_C1.1 none "VIC1" "ts1" 42
      "PUBLIC_PREDISPATCH_202511191430_0.zip" "t0" (by decide) (Or.inl (by decide))
  · rw [provenance_gate_amended_C1.2 "VIC1" "ts1" "t1" _ _
      ⟨"PUBLIC_PREDISPATCH_202511191430_0.zip", "202511191430", "t1"⟩ rfl (by decide)
      (by constructor <;> decide)]
    rfl

